import Mathlib

/-!
Shallow embedding of the oclz reconciliation engine (`src/sync/client.py`,
`src/sync/sync.py`, `src/sync/constants.py`) and proofs about the claims of
its specification.

Modelling conventions:
* Python arbitrary-precision `int` stock counts become `Int`.
* The sqlite `inventory` table (PRIMARY KEY `model`) is an association list
  `List (String × InventoryRow)`; `SELECT ... WHERE model=?` is `find?`,
  `UPDATE`-then-`INSERT` upsert is modelled on the list.
* The `inventory_system_cache` table is keyed by `(model, system)`; the engine
  only ever reads and writes whole rows through that key, so it is modelled as
  a keyed map `String → String → Option CacheRow`.  A fresh `INSERT` supplies
  no `not_behaving` column, so the row gets the schema default `0` (false),
  per `_CREATE_TABLE_INVENTORY_SYSTEM_CACHE` in `src/sync/constants.py`.
* `inventory_system_cache_delta` and `sync_logs` are append-only lists.
* One marketplace adapter environment `Env` fixes, for the duration of a
  batch, the in-memory snapshot (`ListProducts`), the cached product lookup
  (`GetProduct`) and the write behaviour (`UpdateProductStocks`) of every
  system; adapter exceptions are the explicit constructors of `GetResult` /
  `UpdateOutcome`.
* Every `UpdateProductStocks` invocation is recorded in an instrumentation
  trace (`WriteCall`); the trace does not influence the store transitions.
-/

namespace Oclz

/-- Value part of an `inventory` row (key: `model`). -/
structure InventoryRow where
  stocks : Int
  last_sync_batch_id : Int
deriving DecidableEq, Repr

/-- Value part of an `inventory_system_cache` row (key: `(model, system)`). -/
structure CacheRow where
  stocks : Int
  last_sync_batch_id : Int
  not_behaving : Bool
deriving DecidableEq, Repr

/-- A row of `inventory_system_cache_delta` (append-only). -/
structure DeltaRow where
  model : String
  system : String
  cached_stocks : Int
  current_stocks : Int
  stocks_delta : Int
  last_sync_batch_id : Int
deriving DecidableEq, Repr

/-- A row of `sync_logs` (append-only). -/
structure SyncLogRow where
  sync_batch_id : Int
  system : String
  model : String
  previous_stocks : Int
  computed_stocks : Int
  upload_error_code : Int
  upload_error_description : String
deriving DecidableEq, Repr

/-- The durable state the engine manipulates. -/
structure Store where
  inventory : List (String × InventoryRow)
  cache : String → String → Option CacheRow
  deltas : List DeltaRow
  syncLogs : List SyncLogRow

/-- In-flight `InventoryItem` object from `client.py`. -/
structure InventoryItem where
  model : String
  stocks : Int
  last_sync_batch_id : Int
deriving DecidableEq, Repr

/-- A `Product` as returned by an adapter. -/
structure Product where
  model : String
  stocks : Int
deriving DecidableEq, Repr

/-- Result of an adapter `GetProduct` call: a product, or one of the
exceptions `NotFoundError`, `MultipleResultsError`, `CommunicationError`. -/
inductive GetResult
  | ok (p : Product)
  | notFound
  | multiple
  | commError
deriving DecidableEq, Repr

/-- The result object returned by a successful `UpdateProductStocks` call. -/
structure WriteResult where
  error_code : Int
  error_description : String
deriving DecidableEq, Repr

/-- Outcome of an adapter `UpdateProductStocks` call: a `WriteResult`, or one
of the exceptions it may raise. -/
inductive UpdateOutcome
  | ok (r : WriteResult)
  | commError
  | notFound
  | platformNotBehaving
deriving DecidableEq, Repr

/-- The behaviour of all enabled marketplace adapters during one batch. -/
structure Env where
  listProducts : String → List Product
  getProduct : String → String → GetResult
  updateProductStocks : String → String → Int → UpdateOutcome

/-- Instrumentation record of one `UpdateProductStocks` invocation:
the system and model written, the marketplace's pre-write stocks
(`system_item.stocks`), the value passed, and the call's outcome. -/
structure WriteCall where
  system : String
  model : String
  previous : Int
  value : Int
  outcome : UpdateOutcome
deriving DecidableEq, Repr

/-- An exception escaping `Sync`'s per-model loop and aborting the batch. -/
inductive AbortKind
  | platformNotBehaving (system model : String)
  | defaultMultiple (model : String)
  | defaultCommError (model : String)
deriving DecidableEq, Repr

/-- `_GetInventoryItem`: `SELECT ... FROM inventory WHERE model=?`. -/
def getInventoryItem (st : Store) (model : String) : Option InventoryRow :=
  (st.inventory.find? (fun e => e.1 == model)).map (fun e => e.2)

/-- `_GetInventorySystemCacheItem`: lookup by `(model, system)`. -/
def getCacheItem (st : Store) (model system : String) : Option CacheRow :=
  st.cache model system

/-- Pointwise update of the cache map at key `(model, system)`. -/
def setCache (f : String → String → Option CacheRow) (model system : String)
    (v : CacheRow) : String → String → Option CacheRow :=
  fun m s => if m = model ∧ s = system then some v else f m s

/-- `_UpsertInventoryItem`: `UPDATE inventory SET stocks=?, last_sync_batch_id=?
WHERE model=?`, and `INSERT` of the same three columns when no row matched. -/
def upsertInventoryItem (st : Store) (item : InventoryItem) : Store :=
  if st.inventory.any (fun e => e.1 == item.model) then
    { st with inventory := st.inventory.map (fun e =>
        if e.1 == item.model then
          (e.1, { stocks := item.stocks, last_sync_batch_id := item.last_sync_batch_id })
        else e) }
  else
    { st with inventory := st.inventory ++
        [(item.model, { stocks := item.stocks, last_sync_batch_id := item.last_sync_batch_id })] }

/-- `_UpsertInventorySystemCacheItem`: `UPDATE` of `stocks` and
`last_sync_batch_id` at `(model, system)` — which preserves the row's
`not_behaving` flag — and, when the row is absent, an `INSERT` of
`(model, system, stocks, last_sync_batch_id)` whose `not_behaving` takes the
schema default `0`. -/
def upsertInventorySystemCacheItem (st : Store) (system model : String)
    (stocks batch : Int) : Store :=
  match st.cache model system with
  | some c =>
      { st with cache := setCache st.cache model system ⟨stocks, batch, c.not_behaving⟩ }
  | none =>
      { st with cache := setCache st.cache model system ⟨stocks, batch, false⟩ }

/-- `_MarkNotBehavingInventorySystemCacheItem`: `UPDATE inventory_system_cache
SET not_behaving=? WHERE model=? AND system=?` (no insert when absent). -/
def markNotBehaving (st : Store) (system model : String) (nb : Bool) : Store :=
  match st.cache model system with
  | some c =>
      { st with cache := setCache st.cache model system ⟨c.stocks, c.last_sync_batch_id, nb⟩ }
  | none => st

/-- `_RecordSystemStocksDelta`: appends one `inventory_system_cache_delta`
row; `cached_stocks` is recomputed as `current_stocks - stocks_delta`. -/
def recordSystemStocksDelta (st : Store) (batch : Int) (system model : String)
    (stocks_delta current_stocks : Int) : Store :=
  { st with deltas := st.deltas ++
      [{ model := model, system := system,
         cached_stocks := current_stocks - stocks_delta,
         current_stocks := current_stocks, stocks_delta := stocks_delta,
         last_sync_batch_id := batch }] }

/-- `_CalculateSystemStocksDelta`: returns `(current - cached, current)`;
a `not_behaving` cache row forces `cached := current`; any exception from
`GetProduct` or the cache lookup yields `(0, 0)`. -/
def calculateSystemStocksDelta (env : Env) (st : Store) (system model : String) :
    Int × Int :=
  match env.getProduct system model with
  | GetResult.ok p =>
      match st.cache model system with
      | some c =>
          if c.not_behaving then (0, p.stocks)
          else (p.stocks - c.stocks, p.stocks)
      | none => (0, 0)
  | _ => (0, 0)

/-- Exceptions observable from `_UpdateExternalSystemItem`. -/
inductive UpdErr
  | notFound
  | multiple
  | commError
  | platformNotBehaving
deriving DecidableEq, Repr

/-- `_UpdateExternalSystemItem`: pre-write cache freshening, skip when stocks
already match, `UpdateProductStocks` (with `not_behaving` bookkeeping),
`sync_logs` append, and post-write cache commit on `error_code == 0`.
Returns the new store, the trace of `UpdateProductStocks` invocations, and
the exception propagating out of the call, if any. -/
def updateExternalSystemItem (env : Env) (batch : Int) (st : Store)
    (system : String) (item : InventoryItem) :
    Store × List WriteCall × Option UpdErr :=
  match env.getProduct system item.model with
  | GetResult.notFound => (st, [], some UpdErr.notFound)
  | GetResult.multiple => (st, [], some UpdErr.multiple)
  | GetResult.commError => (st, [], some UpdErr.commError)
  | GetResult.ok system_item =>
    let st1 := upsertInventorySystemCacheItem st system system_item.model
        system_item.stocks batch
    if item.stocks = system_item.stocks then (st1, [], none)
    else
      let call := env.updateProductStocks system item.model item.stocks
      let w : WriteCall :=
        { system := system, model := item.model, previous := system_item.stocks,
          value := item.stocks, outcome := call }
      match call with
      | UpdateOutcome.platformNotBehaving =>
          (markNotBehaving st1 system item.model true, [w],
           some UpdErr.platformNotBehaving)
      | UpdateOutcome.commError => (st1, [w], some UpdErr.commError)
      | UpdateOutcome.notFound => (st1, [w], some UpdErr.notFound)
      | UpdateOutcome.ok r =>
          let st2 := markNotBehaving st1 system item.model false
          let st3 := { st2 with syncLogs := st2.syncLogs ++
              [{ sync_batch_id := batch, system := system, model := item.model,
                 previous_stocks := system_item.stocks,
                 computed_stocks := item.stocks,
                 upload_error_code := r.error_code,
                 upload_error_description := r.error_description }] }
          if r.error_code = 0 then
            (upsertInventorySystemCacheItem st3 system item.model item.stocks
                item.last_sync_batch_id, [w], none)
          else (st3, [w], none)

/-- The inner loop of `Sync` over `self._external_systems`, catching
`CommunicationError`, `NotFoundError` and `MultipleResultsError` from
`_UpdateExternalSystemItem`; a `PlatformNotBehavingError` is not caught and
aborts the batch. -/
def updateExternalLoop (env : Env) (batch : Int) (item : InventoryItem) :
    List String → Store → List WriteCall →
    Store × List WriteCall × Option AbortKind
  | [], st, ws => (st, ws, none)
  | system :: rest, st, ws =>
    let step := updateExternalSystemItem env batch st system item
    match step.2.2 with
    | some UpdErr.platformNotBehaving =>
        (step.1, ws ++ step.2.1, some (AbortKind.platformNotBehaving system item.model))
    | _ => updateExternalLoop env batch item rest step.1 (ws ++ step.2.1)

/-- The delta-aggregation phase of `Sync` for one model: iterates over the
enabled systems, appending a `CacheDelta` row for each non-zero delta when
not in read-only mode, and summing the deltas. -/
def aggregateDeltas (env : Env) (batch : Int) (systems : List String)
    (read_only : Bool) (model : String) (st : Store) : Store × Int :=
  match systems with
  | [] => (st, 0)
  | system :: rest =>
    let d := calculateSystemStocksDelta env st system model
    let st' :=
      if d.1 ≠ 0 ∧ read_only = false then
        recordSystemStocksDelta st batch system model d.1 d.2
      else st
    let out := aggregateDeltas env batch rest read_only model st'
    (out.1, d.1 + out.2)

/-- The tail of `Sync`'s loop body after the item has been obtained:
`item.stocks += stocks_delta`, clamp at zero, set the batch id, then either
stop (read-only mode) or upsert the inventory row and update every system. -/
def syncModelItem (env : Env) (batch : Int) (systems : List String)
    (read_only : Bool) (st1 : Store) (item0 : InventoryItem) (delta : Int) :
    Store × List WriteCall × Option AbortKind :=
  let s' := item0.stocks + delta
  let item : InventoryItem :=
    { model := item0.model, stocks := if s' ≤ 0 then 0 else s',
      last_sync_batch_id := batch }
  if read_only then (st1, [], none)
  else updateExternalLoop env batch item systems (upsertInventoryItem st1 item) []

/-- The in-flight item after `item.stocks += stocks_delta`, the clamp at
zero, and `item.last_sync_batch_id = batch` — the value `syncModelItem`
upserts and pushes to every marketplace. -/
def clampedItem (item0 : InventoryItem) (delta batch : Int) : InventoryItem :=
  { model := item0.model,
    stocks := if item0.stocks + delta ≤ 0 then 0 else item0.stocks + delta,
    last_sync_batch_id := batch }

/-- One iteration of `Sync`'s outer loop for a single product model:
delta aggregation, inventory lookup with fallback to the default client
(catching only `NotFoundError` from it), then `syncModelItem`. -/
def syncOneModel (env : Env) (defaultGet : String → GetResult) (batch : Int)
    (systems : List String) (read_only : Bool) (st : Store) (model : String) :
    Store × List WriteCall × Option AbortKind :=
  let agg := aggregateDeltas env batch systems read_only model st
  let st1 := agg.1
  match getInventoryItem st1 model with
  | some row => syncModelItem env batch systems read_only st1
      { model := model, stocks := row.stocks,
        last_sync_batch_id := row.last_sync_batch_id } agg.2
  | none =>
    match defaultGet model with
    | GetResult.ok p => syncModelItem env batch systems read_only st1
        { model := p.model, stocks := p.stocks, last_sync_batch_id := batch } agg.2
    | GetResult.notFound => (st1, [], none)
    | GetResult.multiple => (st1, [], some (AbortKind.defaultMultiple model))
    | GetResult.commError => (st1, [], some (AbortKind.defaultCommError model))

/-- `Sync`'s outer loop over the collected product models; a raised
`PlatformNotBehavingError` (or an uncaught error from the default client's
`GetProduct`) terminates the loop. -/
def syncLoop (env : Env) (defaultGet : String → GetResult) (batch : Int)
    (systems : List String) (read_only : Bool) :
    List String → Store → List WriteCall →
    Store × List WriteCall × Option AbortKind
  | [], st, ws => (st, ws, none)
  | m :: rest, st, ws =>
    let step := syncOneModel env defaultGet batch systems read_only st m
    match step.2.2 with
    | some ab => (step.1, ws ++ step.2.1, some ab)
    | none => syncLoop env defaultGet batch systems read_only rest step.1 (ws ++ step.2.1)

/-- Set-insertion used to model `models.add(p.model)` on a Python `set`,
with first-seen iteration order. -/
def insertModel (l : List String) (m : String) : List String :=
  if m ∈ l then l else l ++ [m]

/-- `_CollectExternalProductModels` (no filter): all distinct non-empty
product models across the enabled systems' snapshots. -/
def collectModels (env : Env) (systems : List String) : List String :=
  systems.foldl
    (fun acc system =>
      (env.listProducts system).foldl
        (fun acc p => if p.model = "" then acc else insertModel acc p.model) acc)
    []

/-- `SyncClient.Sync`: one whole batch.  The batch id is a parameter (the
`sync_batch` table row created by `_InitSyncBatch` is not itself modelled).
Returns the final store, the trace of adapter write invocations, and `none`
when `Sync` returned normally (`some` when an exception escaped it). -/
def Sync (env : Env) (defaultGet : String → GetResult) (batch : Int)
    (systems : List String) (read_only : Bool) (st : Store) :
    Store × List WriteCall × Option AbortKind :=
  syncLoop env defaultGet batch systems read_only (collectModels env systems) st []

/-- `_DeleteInventoryItems`: delete every row whose model is listed. -/
def deleteInventoryItems (st : Store) (models : List String) : Store :=
  { st with inventory := st.inventory.filter (fun e => !(models.contains e.1)) }

/-- `ListDeletedSystemModels` from `src/sync/sync.py`: raises
`CommunicationError` (modelled as `none`) when the system's client is not
initialized or when the system lists zero product models; otherwise returns
the locally-cached models absent from the listing. -/
def listDeletedSystemModels (env : Env) (st : Store) (system : String)
    (hasClient : Bool) : Option (List String) :=
  if hasClient = false then none
  else
    let cached_models := st.inventory.map (fun e => e.1)
    let online_models := collectModels env [system]
    if online_models = [] then none
    else some (cached_models.filter (fun m => !(online_models.contains m)))

/-- `DoCleanupProcedure`'s body under the opened sync client: list the
deleted models then delete them.  The boolean flags whether the
`CommunicationError` from `ListDeletedSystemModels` propagated (in which
case `_DeleteInventoryItems` never runs and the store is returned as-is). -/
def doCleanupProcedure (env : Env) (st : Store) (system : String)
    (hasClient : Bool) : Store × Bool :=
  match listDeletedSystemModels env st system hasClient with
  | none => (st, true)
  | some deleted => (deleteInventoryItems st deleted, false)

/-- Keyword parameters accepted by `SyncClient.__init__` in
`src/sync/client.py`. -/
def syncClientInitParams : List String :=
  ["dbpath", "opencart_client", "lazada_client", "shopee_client",
   "woocommerce_client", "default_client"]

/-- Keyword arguments that `DoSyncProcedure` in `src/sync/sync.py` passes to
`client.SyncClient(...)`. -/
def doSyncProcedureSyncClientArgs : List String :=
  ["dbpath", "opencart_client", "lazada_client", "shopee_client",
   "woocommerce_client", "tiktok_client", "default_client"]

/-- `self._external_systems` as built by `SyncClient.__init__` from the
truthiness of the four client parameters; `src/sync/constants.py` defines
exactly these four system codes. -/
def externalSystemsOf (opencart lazada shopee woocommerce : Bool) : List String :=
  (if opencart then ["OPENCART"] else []) ++
  (if lazada then ["LAZADA"] else []) ++
  (if shopee then ["SHOPEE"] else []) ++
  (if woocommerce then ["WOOCOMMERCE"] else [])

/-- Adapter coherence: `GetProduct(model)` returns a product whose `model`
field is the queried model. -/
def EnvCoherent (env : Env) : Prop :=
  ∀ system model p, env.getProduct system model = GetResult.ok p → p.model = model

/-- Default-client coherence: its `GetProduct(model)` returns a product whose
`model` field is the queried model. -/
def GetCoherent (g : String → GetResult) : Prop :=
  ∀ model p, g model = GetResult.ok p → p.model = model

/-- The per-model aggregate delta, computed against a fixed store. -/
def modelDelta (env : Env) (st : Store) (systems : List String) (model : String) : Int :=
  match systems with
  | [] => 0
  | system :: rest =>
    (calculateSystemStocksDelta env st system model).1 +
      modelDelta env st rest model

/-- The base stock value `Sync` starts from for a model: the inventory row's
stocks, or the default client's product stocks when the row is absent. -/
def modelBase (defaultGet : String → GetResult) (st : Store) (model : String) :
    Option Int :=
  match getInventoryItem st model with
  | some row => some row.stocks
  | none =>
    match defaultGet model with
    | GetResult.ok p => some p.stocks
    | _ => none

/-! Concrete batch scenarios used to evaluate the theorems on closed inputs.
`twoSysEnv`/`twoSysStore` realize the spec's scenario 2: marketplaces `A` and
`B`, SKU `X`, authoritative stocks 10, a sale of 3 observed on `A`. -/

/-- Stock level marketplace `system` reports in the `twoSysEnv` scenario. -/
def twoSysStocks (system : String) : Int :=
  if system = "A" then 7 else 10

/-- Two marketplaces; `A` reports 7 for every model, `B` reports 10; every
write succeeds with error code 0. -/
def twoSysEnv : Env where
  listProducts := fun system => [⟨"X", twoSysStocks system⟩]
  getProduct := fun system model => GetResult.ok ⟨model, twoSysStocks system⟩
  updateProductStocks := fun _ _ _ => UpdateOutcome.ok ⟨0, "ok"⟩

/-- A default client that has no products. -/
def noDefault : String → GetResult := fun _ => GetResult.notFound

/-- Inventory `X = 10`; both marketplaces cached at 10, behaving. -/
def twoSysStore : Store where
  inventory := [("X", ⟨10, 0⟩)]
  cache := fun m s =>
    if m = "X" ∧ (s = "A" ∨ s = "B") then some ⟨10, 0, false⟩ else none
  deltas := []
  syncLogs := []

/-- Like `twoSysStore`, but marketplace `A`'s cache row for `X` is flagged
`not_behaving`. -/
def nbStore : Store where
  inventory := [("X", ⟨10, 0⟩)]
  cache := fun m s =>
    if m = "X" ∧ s = "A" then some ⟨10, 0, true⟩
    else if m = "X" ∧ s = "B" then some ⟨10, 0, false⟩ else none
  deltas := []
  syncLogs := []

/-- Like `twoSysEnv`, but every `UpdateProductStocks` call raises
`CommunicationError`. -/
def failUpdEnv : Env where
  listProducts := fun system => [⟨"X", twoSysStocks system⟩]
  getProduct := fun system model => GetResult.ok ⟨model, twoSysStocks system⟩
  updateProductStocks := fun _ _ _ => UpdateOutcome.commError

/-- Two models `X`, `Y`; the marketplace reports 5 for each; every
`UpdateProductStocks` call raises `PlatformNotBehavingError`. -/
def pnbEnv : Env where
  listProducts := fun _ => [⟨"X", 5⟩, ⟨"Y", 5⟩]
  getProduct := fun _ model => GetResult.ok ⟨model, 5⟩
  updateProductStocks := fun _ _ _ => UpdateOutcome.platformNotBehaving

/-- Inventory rows for `X` and `Y` at 9; marketplace `A` cached at 5. -/
def pnbStore : Store where
  inventory := [("X", ⟨9, 0⟩), ("Y", ⟨9, 0⟩)]
  cache := fun m s =>
    if (m = "X" ∨ m = "Y") ∧ s = "A" then some ⟨5, 0, false⟩ else none
  deltas := []
  syncLogs := []

/-- A marketplace whose snapshot lists the single model `A`. -/
def cleanEnv : Env where
  listProducts := fun _ => [⟨"A", 4⟩]
  getProduct := fun _ _ => GetResult.notFound
  updateProductStocks := fun _ _ _ => UpdateOutcome.commError

/-- A marketplace whose snapshot lists no products at all. -/
def emptyListEnv : Env where
  listProducts := fun _ => []
  getProduct := fun _ _ => GetResult.notFound
  updateProductStocks := fun _ _ _ => UpdateOutcome.commError

/-- Local inventory holding models `A` and `B`. -/
def cleanStore : Store where
  inventory := [("A", ⟨4, 0⟩), ("B", ⟨2, 0⟩)]
  cache := fun _ _ => none
  deltas := []
  syncLogs := []

/-! Generic association-list lemmas used to reason about the `inventory`
table. -/

theorem find_map_update {β : Type} (k : String) (v : β) :
    ∀ l : List (String × β),
      ((l.map fun e => if e.1 == k then (e.1, v) else e).find?
          (fun e => e.1 == k)) =
        (if l.any (fun e => e.1 == k) then some (k, v) else none) := by
  intro l
  induction l with
  | nil => simp
  | cons e t ih =>
    rw [List.map_cons, List.any_cons]
    by_cases he : e.1 = k
    · have hbe : (e.1 == k) = true := by simpa using he
      rw [if_pos hbe, List.find?_cons_of_pos _ (by simpa using he), hbe]
      simp [he]
    · have hbe : (e.1 == k) = false := by simpa using he
      rw [if_neg (by simp [hbe]), List.find?_cons_of_neg _ (by simp [hbe]), ih,
        hbe, Bool.false_or]

theorem find_append_single {β : Type} (k : String) (v : β)
    (l : List (String × β)) (h : l.any (fun e => e.1 == k) = false) :
    ((l ++ [(k, v)]).find? (fun e => e.1 == k)) = some (k, v) := by
  induction l with
  | nil => simp [List.find?]
  | cons e t ih =>
    simp only [List.any_cons, Bool.or_eq_false_iff] at h
    simp only [List.cons_append, List.find?, h.1]
    exact ih h.2

theorem find_map_update_other {β : Type} (k m : String) (v : β) (hm : m ≠ k) :
    ∀ l : List (String × β),
      ((l.map fun e => if e.1 == k then (e.1, v) else e).find?
          (fun e => e.1 == m)) = l.find? (fun e => e.1 == m) := by
  intro l
  induction l with
  | nil => simp
  | cons e t ih =>
    rw [List.map_cons]
    by_cases he : e.1 = k
    · have hbe : (e.1 == k) = true := by simpa using he
      have hbm : (e.1 == m) = false := by
        simp only [beq_eq_false_iff_ne, ne_eq]
        exact fun hc => hm (he ▸ hc).symm
      rw [if_pos hbe, List.find?_cons_of_neg _ (by simp [hbm]),
        List.find?_cons_of_neg _ (by simp [hbm]), ih]
    · have hbe : (e.1 == k) = false := by simpa using he
      rw [if_neg (by simp [hbe])]
      by_cases hem : e.1 = m
      · have hbm : (e.1 == m) = true := by simpa using hem
        rw [List.find?_cons_of_pos _ (by simpa using hem),
          List.find?_cons_of_pos _ (by simpa using hem)]
      · have hbm : (e.1 == m) = false := by simpa using hem
        rw [List.find?_cons_of_neg _ (by simp [hbm]),
          List.find?_cons_of_neg _ (by simp [hbm]), ih]

theorem find_append_single_other {β : Type} (k m : String) (v : β)
    (hm : m ≠ k) (l : List (String × β)) :
    ((l ++ [(k, v)]).find? (fun e => e.1 == m)) =
      l.find? (fun e => e.1 == m) := by
  induction l with
  | nil =>
    have hbm : (k == m) = false := by
      simp only [beq_eq_false_iff_ne, ne_eq]
      exact fun hc => hm hc.symm
    rw [List.nil_append, List.find?_cons_of_neg _ (by simp [hbm])]
  | cons e t ih =>
    rw [List.cons_append]
    by_cases hem : (e.1 == m) = true
    · rw [List.find?_cons_of_pos _ (by simpa using hem),
        List.find?_cons_of_pos _ (by simpa using hem)]
    · simp only [Bool.not_eq_true] at hem
      rw [List.find?_cons_of_neg _ (by simp [hem]),
        List.find?_cons_of_neg _ (by simp [hem]), ih]

theorem find_filter_keep {β : Type} (p q : (String × β) → Bool) :
    ∀ l : List (String × β), (∀ e, p e = true → q e = true) →
      (l.filter q).find? p = l.find? p := by
  intro l h
  induction l with
  | nil => simp
  | cons e t ih =>
    by_cases hp : p e = true
    · simp [List.filter_cons, h e hp, List.find?, hp]
    · simp only [Bool.not_eq_true] at hp
      by_cases hq : q e = true
      · simp [List.filter_cons, hq, List.find?, hp, ih]
      · simp only [Bool.not_eq_true] at hq
        simp [List.filter_cons, hq, List.find?, hp, ih]

theorem find_filter_drop {β : Type} (p q : (String × β) → Bool) :
    ∀ l : List (String × β), (∀ e, p e = true → q e = false) →
      (l.filter q).find? p = none := by
  intro l h
  induction l with
  | nil => simp
  | cons e t ih =>
    by_cases hp : p e = true
    · simp [List.filter_cons, h e hp, ih]
    · simp only [Bool.not_eq_true] at hp
      by_cases hq : q e = true
      · simp [List.filter_cons, hq, List.find?, hp, ih]
      · simp only [Bool.not_eq_true] at hq
        simp [List.filter_cons, hq, ih]

/-! Frame lemmas: which store fields each primitive operation leaves
untouched. -/

@[simp] theorem upsertCache_inventory (st : Store) (system model : String)
    (stocks batch : Int) :
    (upsertInventorySystemCacheItem st system model stocks batch).inventory =
      st.inventory := by
  unfold upsertInventorySystemCacheItem
  cases st.cache model system <;> rfl

@[simp] theorem upsertCache_deltas (st : Store) (system model : String)
    (stocks batch : Int) :
    (upsertInventorySystemCacheItem st system model stocks batch).deltas =
      st.deltas := by
  unfold upsertInventorySystemCacheItem
  cases st.cache model system <;> rfl

@[simp] theorem upsertCache_syncLogs (st : Store) (system model : String)
    (stocks batch : Int) :
    (upsertInventorySystemCacheItem st system model stocks batch).syncLogs =
      st.syncLogs := by
  unfold upsertInventorySystemCacheItem
  cases st.cache model system <;> rfl

@[simp] theorem mark_inventory (st : Store) (system model : String) (nb : Bool) :
    (markNotBehaving st system model nb).inventory = st.inventory := by
  unfold markNotBehaving
  cases st.cache model system <;> rfl

@[simp] theorem mark_deltas (st : Store) (system model : String) (nb : Bool) :
    (markNotBehaving st system model nb).deltas = st.deltas := by
  unfold markNotBehaving
  cases st.cache model system <;> rfl

@[simp] theorem mark_syncLogs (st : Store) (system model : String) (nb : Bool) :
    (markNotBehaving st system model nb).syncLogs = st.syncLogs := by
  unfold markNotBehaving
  cases st.cache model system <;> rfl

@[simp] theorem upsertInv_cache (st : Store) (item : InventoryItem) :
    (upsertInventoryItem st item).cache = st.cache := by
  unfold upsertInventoryItem
  by_cases h : st.inventory.any (fun e => e.1 == item.model) <;> simp [h]

@[simp] theorem upsertInv_deltas (st : Store) (item : InventoryItem) :
    (upsertInventoryItem st item).deltas = st.deltas := by
  unfold upsertInventoryItem
  by_cases h : st.inventory.any (fun e => e.1 == item.model) <;> simp [h]

@[simp] theorem upsertInv_syncLogs (st : Store) (item : InventoryItem) :
    (upsertInventoryItem st item).syncLogs = st.syncLogs := by
  unfold upsertInventoryItem
  by_cases h : st.inventory.any (fun e => e.1 == item.model) <;> simp [h]

@[simp] theorem record_inventory (st : Store) (batch : Int)
    (system model : String) (d c : Int) :
    (recordSystemStocksDelta st batch system model d c).inventory =
      st.inventory := rfl

@[simp] theorem record_cache (st : Store) (batch : Int)
    (system model : String) (d c : Int) :
    (recordSystemStocksDelta st batch system model d c).cache = st.cache := rfl

@[simp] theorem record_syncLogs (st : Store) (batch : Int)
    (system model : String) (d c : Int) :
    (recordSystemStocksDelta st batch system model d c).syncLogs =
      st.syncLogs := rfl

/-! Lookup behaviour of the primitive operations. -/

theorem getInv_upsert_self (st : Store) (item : InventoryItem) :
    getInventoryItem (upsertInventoryItem st item) item.model =
      some ⟨item.stocks, item.last_sync_batch_id⟩ := by
  unfold getInventoryItem upsertInventoryItem
  by_cases h : st.inventory.any (fun e => e.1 == item.model)
  · simp only [h, if_true]
    rw [find_map_update]
    simp [h]
  · simp only [Bool.not_eq_true] at h
    simp only [h, Bool.false_eq_true, if_false]
    rw [find_append_single _ _ _ h]
    rfl

theorem getInv_upsert_other (st : Store) (item : InventoryItem) (m : String)
    (hm : m ≠ item.model) :
    getInventoryItem (upsertInventoryItem st item) m = getInventoryItem st m := by
  unfold getInventoryItem upsertInventoryItem
  by_cases h : st.inventory.any (fun e => e.1 == item.model)
  · simp only [h, if_true]
    rw [find_map_update_other _ _ _ hm]
  · simp only [Bool.not_eq_true] at h
    simp only [h, Bool.false_eq_true, if_false]
    rw [find_append_single_other _ _ _ hm]

@[simp] theorem getCacheItem_eq (st : Store) (model system : String) :
    getCacheItem st model system = st.cache model system := rfl

theorem getCache_upsert_self_some (st : Store) (system model : String)
    (stocks batch : Int) (c : CacheRow) (h : st.cache model system = some c) :
    getCacheItem (upsertInventorySystemCacheItem st system model stocks batch)
      model system = some ⟨stocks, batch, c.not_behaving⟩ := by
  unfold upsertInventorySystemCacheItem
  rw [h]
  simp [setCache]

theorem getCache_upsert_self_none (st : Store) (system model : String)
    (stocks batch : Int) (h : st.cache model system = none) :
    getCacheItem (upsertInventorySystemCacheItem st system model stocks batch)
      model system = some ⟨stocks, batch, false⟩ := by
  unfold upsertInventorySystemCacheItem
  rw [h]
  simp [setCache]

theorem getCache_upsert_other (st : Store) (system model : String)
    (stocks batch : Int) (m' s' : String) (h : ¬(m' = model ∧ s' = system)) :
    getCacheItem (upsertInventorySystemCacheItem st system model stocks batch)
      m' s' = getCacheItem st m' s' := by
  unfold upsertInventorySystemCacheItem
  cases st.cache model system <;> simp [setCache, h]

theorem getCache_mark_some (st : Store) (system model : String) (nb : Bool)
    (c : CacheRow) (h : st.cache model system = some c) :
    getCacheItem (markNotBehaving st system model nb) model system =
      some ⟨c.stocks, c.last_sync_batch_id, nb⟩ := by
  unfold markNotBehaving
  rw [h]
  simp [setCache]

theorem getCache_mark_other (st : Store) (system model : String) (nb : Bool)
    (m' s' : String) (h : ¬(m' = model ∧ s' = system)) :
    getCacheItem (markNotBehaving st system model nb) m' s' =
      getCacheItem st m' s' := by
  unfold markNotBehaving
  cases st.cache model system <;> simp [setCache, h]

/-! The delta-aggregation phase only appends delta rows, and its aggregate
equals `modelDelta` over the starting store. -/

theorem calc_cache_congr (env : Env) (st1 st2 : Store) (system model : String)
    (h : st1.cache model system = st2.cache model system) :
    calculateSystemStocksDelta env st1 system model =
      calculateSystemStocksDelta env st2 system model := by
  unfold calculateSystemStocksDelta
  rw [h]

theorem modelDelta_congr (env : Env) (st1 st2 : Store) (m : String)
    (h : ∀ sys, st1.cache m sys = st2.cache m sys) :
    ∀ systems, modelDelta env st1 systems m = modelDelta env st2 systems m := by
  intro systems
  induction systems with
  | nil => rfl
  | cons sys rest ih =>
    unfold modelDelta
    rw [ih, calc_cache_congr env st1 st2 sys m (h sys)]

theorem aggregateDeltas_spec (env : Env) (batch : Int) (m : String) (ro : Bool) :
    ∀ (systems : List String) (st : Store),
      (aggregateDeltas env batch systems ro m st).1.inventory = st.inventory ∧
      (aggregateDeltas env batch systems ro m st).1.cache = st.cache ∧
      (aggregateDeltas env batch systems ro m st).1.syncLogs = st.syncLogs ∧
      (aggregateDeltas env batch systems ro m st).2 =
        modelDelta env st systems m := by
  intro systems
  induction systems with
  | nil => intro st; exact ⟨rfl, rfl, rfl, rfl⟩
  | cons sys rest ih =>
    intro st
    simp only [aggregateDeltas]
    by_cases hc : (calculateSystemStocksDelta env st sys m).1 ≠ 0 ∧ ro = false
    · rw [if_pos hc]
      obtain ⟨h1, h2, h3, h4⟩ := ih (recordSystemStocksDelta st batch sys m
        (calculateSystemStocksDelta env st sys m).1
        (calculateSystemStocksDelta env st sys m).2)
      refine ⟨h1.trans (by rfl), h2.trans (by rfl), h3.trans (by rfl), ?_⟩
      rw [h4]
      have hmd := modelDelta_congr env (recordSystemStocksDelta st batch sys m
        (calculateSystemStocksDelta env st sys m).1
        (calculateSystemStocksDelta env st sys m).2) st m (fun sys' => rfl) rest
      rw [hmd]
      rfl
    · rw [if_neg hc]
      obtain ⟨h1, h2, h3, h4⟩ := ih st
      exact ⟨h1, h2, h3, by rw [h4]; rfl⟩

/-- C3: If the cache row for `(model, system)` has `not_behaving` set at
batch start, `_CalculateSystemStocksDelta` contributes a delta of 0 for that
marketplace and SKU, regardless of the stock value it currently reports
(`cached` is forced equal to `current`). -/
theorem C3_not_behaving_short_circuit (env : Env) (st : Store)
    (system model : String) (c : CacheRow)
    (hc : getCacheItem st model system = some c)
    (hnb : c.not_behaving = true) :
    (calculateSystemStocksDelta env st system model).1 = 0 := by
  have hc' : st.cache model system = some c := hc
  unfold calculateSystemStocksDelta
  cases hg : env.getProduct system model <;> simp [hc', hnb]

/-- C3 witness: marketplace `A` reports 7 while the not-behaving cache row
holds 10, yet the contributed delta is 0. -/
theorem C3_witness :
    getCacheItem nbStore "X" "A" = some ⟨10, 0, true⟩ ∧
    (calculateSystemStocksDelta twoSysEnv nbStore "A" "X").1 = 0 :=
  ⟨by decide,
   C3_not_behaving_short_circuit twoSysEnv nbStore "A" "X" ⟨10, 0, true⟩
     (by decide) rfl⟩

/-- C8: Upsert semantics — an inventory upsert updates the existing row in
place (same row count) or inserts a new row with the supplied values; a cache
upsert never changes an existing row's `not_behaving` flag, and a freshly
inserted cache row has `not_behaving` false (the schema default). -/
theorem C8_upsert_semantics (st : Store) (system model : String)
    (item : InventoryItem) (stocks batch : Int) :
    (∀ r, getInventoryItem st item.model = some r →
        getInventoryItem (upsertInventoryItem st item) item.model =
          some ⟨item.stocks, item.last_sync_batch_id⟩ ∧
        (upsertInventoryItem st item).inventory.length =
          st.inventory.length) ∧
    (getInventoryItem st item.model = none →
        getInventoryItem (upsertInventoryItem st item) item.model =
          some ⟨item.stocks, item.last_sync_batch_id⟩ ∧
        (upsertInventoryItem st item).inventory.length =
          st.inventory.length + 1) ∧
    (∀ c, getCacheItem st model system = some c →
        getCacheItem
            (upsertInventorySystemCacheItem st system model stocks batch)
            model system = some ⟨stocks, batch, c.not_behaving⟩) ∧
    (getCacheItem st model system = none →
        getCacheItem
            (upsertInventorySystemCacheItem st system model stocks batch)
            model system = some ⟨stocks, batch, false⟩) := by
  refine ⟨fun r hr => ⟨getInv_upsert_self st item, ?_⟩,
          fun hn => ⟨getInv_upsert_self st item, ?_⟩,
          fun c hc => getCache_upsert_self_some st system model stocks batch c hc,
          fun hn => getCache_upsert_self_none st system model stocks batch hn⟩
  · have hany : st.inventory.any (fun e => e.1 == item.model) = true := by
      unfold getInventoryItem at hr
      rcases hf : st.inventory.find? (fun e => e.1 == item.model) with _ | e
      · rw [hf] at hr; simp at hr
      · have hpe := List.find?_some hf
        rw [List.any_eq_true]
        exact ⟨e, List.mem_of_find?_eq_some hf, hpe⟩
    unfold upsertInventoryItem
    rw [hany]
    simp
  · have hany : st.inventory.any (fun e => e.1 == item.model) = false := by
      unfold getInventoryItem at hn
      rcases hf : st.inventory.find? (fun e => e.1 == item.model) with _ | e
      · rw [Bool.eq_false_iff]
        intro ha
        rw [List.any_eq_true] at ha
        obtain ⟨e, he, hpe⟩ := ha
        exact (List.find?_eq_none.mp hf e he) hpe
      · rw [hf] at hn; simp at hn
    unfold upsertInventoryItem
    rw [hany]
    simp

/-- C8 witness: evaluating both inventory-upsert branches and both
cache-upsert branches of the theorem on `twoSysStore`. -/
theorem C8_witness :
    getInventoryItem (upsertInventoryItem twoSysStore ⟨"X", 7, 1⟩) "X" =
      some ⟨7, 1⟩ ∧
    (upsertInventoryItem twoSysStore ⟨"X", 7, 1⟩).inventory.length = 1 ∧
    getInventoryItem (upsertInventoryItem twoSysStore ⟨"Z", 4, 1⟩) "Z" =
      some ⟨4, 1⟩ ∧
    (upsertInventoryItem twoSysStore ⟨"Z", 4, 1⟩).inventory.length = 2 ∧
    getCacheItem (upsertInventorySystemCacheItem twoSysStore "A" "X" 7 1)
      "X" "A" = some ⟨7, 1, false⟩ ∧
    getCacheItem (upsertInventorySystemCacheItem twoSysStore "A" "Z" 4 1)
      "Z" "A" = some ⟨4, 1, false⟩ := by
  have h1 := (C8_upsert_semantics twoSysStore "A" "X" ⟨"X", 7, 1⟩ 7 1).1
    ⟨10, 0⟩ (by decide)
  have h2 := (C8_upsert_semantics twoSysStore "A" "Z" ⟨"Z", 4, 1⟩ 4 1).2.1
    (by decide)
  have h3 := (C8_upsert_semantics twoSysStore "A" "X" ⟨"X", 7, 1⟩ 7 1).2.2.1
    ⟨10, 0, false⟩ (by decide)
  have h4 := (C8_upsert_semantics twoSysStore "A" "Z" ⟨"Z", 4, 1⟩ 4 1).2.2.2
    (by decide)
  refine ⟨h1.1, by rw [h1.2]; decide, h2.1, by rw [h2.2]; decide, h3, h4⟩

/-- C9: The claim fails because the code cannot construct the TikTok
participation it describes: `DoSyncProcedure` passes a `tiktok_client`
keyword argument that `SyncClient.__init__` does not accept (a `TypeError`
at construction), and `SyncClient` can never include TikTok in its enabled
system set. -/
theorem C9_tiktok_unsupported :
    "tiktok_client" ∈ doSyncProcedureSyncClientArgs ∧
    "tiktok_client" ∉ syncClientInitParams ∧
    ∀ a b c d : Bool, "TIKTOK" ∉ externalSystemsOf a b c d := by
  decide

/-! Read-only runs leave the store untouched and issue no writes. -/

theorem aggregateDeltas_readonly (env : Env) (batch : Int) (m : String) :
    ∀ (systems : List String) (st : Store),
      aggregateDeltas env batch systems true m st =
        (st, modelDelta env st systems m) := by
  intro systems
  induction systems with
  | nil => intro st; rfl
  | cons sys rest ih =>
    intro st
    simp only [aggregateDeltas]
    rw [if_neg (by simp), ih st]
    simp only [modelDelta]

theorem syncOneModel_readonly (env : Env) (dg : String → GetResult)
    (batch : Int) (systems : List String) (st : Store) (m : String) :
    (syncOneModel env dg batch systems true st m).1 = st ∧
    (syncOneModel env dg batch systems true st m).2.1 = [] := by
  simp only [syncOneModel, aggregateDeltas_readonly]
  cases h : getInventoryItem st m with
  | some row => simp [syncModelItem]
  | none => cases hd : dg m <;> simp [syncModelItem]

theorem syncLoop_readonly (env : Env) (dg : String → GetResult) (batch : Int)
    (systems : List String) :
    ∀ (L : List String) (st : Store) (ws : List WriteCall),
      (syncLoop env dg batch systems true L st ws).1 = st ∧
      (syncLoop env dg batch systems true L st ws).2.1 = ws := by
  intro L
  induction L with
  | nil => intro st ws; exact ⟨rfl, rfl⟩
  | cons m rest ih =>
    intro st ws
    obtain ⟨h1, h2⟩ := syncOneModel_readonly env dg batch systems st m
    simp only [syncLoop]
    cases he : (syncOneModel env dg batch systems true st m).2.2 with
    | some ab => simp [h1, h2]
    | none =>
      rw [h1, h2, List.append_nil]
      exact ih st ws

/-- C4 (amended): a read-only batch computes deltas but performs no store
mutation whatsoever — in particular it appends no `CacheDelta` rows — and
issues no adapter writes. -/
theorem C4_read_only_no_mutation (env : Env) (dg : String → GetResult)
    (batch : Int) (systems : List String) (st : Store) :
    (Sync env dg batch systems true st).1 = st ∧
    (Sync env dg batch systems true st).2.1 = [] := by
  unfold Sync
  exact syncLoop_readonly env dg batch systems (collectModels env systems) st []

/-- C4 counterexample: marketplace `A` shows a non-zero observed delta for
`X` (cached 10, current 7), yet the read-only batch appends no `CacheDelta`
row — the same batch in read-write mode does append one. -/
theorem C4_counterexample :
    (calculateSystemStocksDelta twoSysEnv twoSysStore "A" "X").1 = -3 ∧
    (Sync twoSysEnv noDefault 1 ["A", "B"] true twoSysStore).1.deltas = [] ∧
    (Sync twoSysEnv noDefault 1 ["A", "B"] false twoSysStore).1.deltas ≠ [] := by
  decide

/-- C6 (amended): a `sync_logs` row is appended for a `(marketplace, SKU)`
pair exactly when `UpdateProductStocks` was invoked for it and returned a
`WriteResult` (no exception); when the call raises, or when the computed
stocks already equal the marketplace's current stocks, no row is appended.
When appended, the row records the pre-write stocks, the computed stocks and
the result's error code and description, regardless of the error code's
value. -/
theorem C6_synclog_iff_returned_write (env : Env) (batch : Int) (st : Store)
    (system : String) (item : InventoryItem) :
    ((updateExternalSystemItem env batch st system item).1.syncLogs ≠
        st.syncLogs ↔
      (updateExternalSystemItem env batch st system item).2.1 ≠ [] ∧
        ∃ r, env.updateProductStocks system item.model item.stocks =
          UpdateOutcome.ok r) ∧
    (∀ p r, env.getProduct system item.model = GetResult.ok p →
      item.stocks ≠ p.stocks →
      env.updateProductStocks system item.model item.stocks =
        UpdateOutcome.ok r →
      (updateExternalSystemItem env batch st system item).1.syncLogs =
        st.syncLogs ++ [⟨batch, system, item.model, p.stocks, item.stocks,
          r.error_code, r.error_description⟩]) := by
  rcases hg : env.getProduct system item.model with p | _ | _ | _
  · by_cases heq : item.stocks = p.stocks
    · refine ⟨by simp [updateExternalSystemItem, hg, heq],
        fun p' r hg' hne hu => ?_⟩
      have hp : p' = p := by
        cases hg'
        rfl
      rw [hp] at hne
      exact absurd heq hne
    · rcases hu : env.updateProductStocks system item.model item.stocks with
        r | _ | _ | _
      · constructor
        · by_cases hec : r.error_code = 0 <;>
            simp [updateExternalSystemItem, hg, heq, hu, hec]
        · intro p' r' hg' hne hu'
          cases hg'
          cases hu'
          simp only [updateExternalSystemItem, hg, hu, if_neg heq]
          split <;> simp
      · exact ⟨by simp [updateExternalSystemItem, hg, heq, hu],
          fun p' r' hg' hne hu' => UpdateOutcome.noConfusion hu'⟩
      · exact ⟨by simp [updateExternalSystemItem, hg, heq, hu],
          fun p' r' hg' hne hu' => UpdateOutcome.noConfusion hu'⟩
      · exact ⟨by simp [updateExternalSystemItem, hg, heq, hu],
          fun p' r' hg' hne hu' => UpdateOutcome.noConfusion hu'⟩
  · exact ⟨by simp [updateExternalSystemItem, hg],
      fun p r hg' => GetResult.noConfusion hg'⟩
  · exact ⟨by simp [updateExternalSystemItem, hg],
      fun p r hg' => GetResult.noConfusion hg'⟩
  · exact ⟨by simp [updateExternalSystemItem, hg],
      fun p r hg' => GetResult.noConfusion hg'⟩

/-- C6 witness: the write to `B` (10 → 7) returns error code 0 and appends
exactly one `sync_logs` row recording previous 10, computed 7. -/
theorem C6_witness :
    (updateExternalSystemItem twoSysEnv 1 twoSysStore "B" ⟨"X", 7, 1⟩).1.syncLogs =
      twoSysStore.syncLogs ++ [⟨1, "B", "X", 10, 7, 0, "ok"⟩] :=
  (C6_synclog_iff_returned_write twoSysEnv 1 twoSysStore "B" ⟨"X", 7, 1⟩).2
    ⟨"X", 10⟩ ⟨0, "ok"⟩ (by decide) (by decide) (by decide)

/-- C6 counterexample: `UpdateProductStocks` is invoked (the computed stocks
7 differ from the current 10) but raises `CommunicationError`, and no
`sync_logs` row is appended — refuting append-iff-invoked. -/
theorem C6_counterexample :
    (updateExternalSystemItem failUpdEnv 1 twoSysStore "B" ⟨"X", 7, 1⟩).2.1 ≠ [] ∧
    (updateExternalSystemItem failUpdEnv 1 twoSysStore "B" ⟨"X", 7, 1⟩).1.syncLogs =
      twoSysStore.syncLogs := by
  decide

/-! A `PlatformNotBehavingError` sets the `not_behaving` flag and then
escapes `Sync` — the lemmas follow the exception from
`_UpdateExternalSystemItem` through both loops. -/

theorem updExt_pnb (env : Env) (batch : Int) (st : Store) (system : String)
    (item : InventoryItem)
    (hco : ∀ p, env.getProduct system item.model = GetResult.ok p →
      p.model = item.model)
    (h : (updateExternalSystemItem env batch st system item).2.2 =
      some UpdErr.platformNotBehaving) :
    ∃ c, getCacheItem (updateExternalSystemItem env batch st system item).1
        item.model system = some c ∧ c.not_behaving = true := by
  rcases hg : env.getProduct system item.model with p | _ | _ | _
  · have hm : p.model = item.model := hco p hg
    by_cases heq : item.stocks = p.stocks
    · simp only [updateExternalSystemItem, hg, if_pos heq] at h
      exact absurd h (by simp)
    · rcases hu : env.updateProductStocks system item.model item.stocks with
        r | _ | _ | _
      · simp only [updateExternalSystemItem, hg, if_neg heq, hu] at h
        split at h <;> exact absurd h (by simp)
      · simp only [updateExternalSystemItem, hg, if_neg heq, hu] at h
        exact absurd h (by simp)
      · simp only [updateExternalSystemItem, hg, if_neg heq, hu] at h
        exact absurd h (by simp)
      · simp only [updateExternalSystemItem, hg, if_neg heq, hu]
        rw [← hm]
        rcases hc0 : st.cache p.model system with _ | c0
        · have h1 := getCache_upsert_self_none st system p.model p.stocks batch hc0
          exact ⟨_, getCache_mark_some _ system p.model true _ h1, rfl⟩
        · have h1 := getCache_upsert_self_some st system p.model p.stocks batch c0 hc0
          exact ⟨_, getCache_mark_some _ system p.model true _ h1, rfl⟩
  · simp only [updateExternalSystemItem, hg] at h
    exact absurd h (by simp)
  · simp only [updateExternalSystemItem, hg] at h
    exact absurd h (by simp)
  · simp only [updateExternalSystemItem, hg] at h
    exact absurd h (by simp)

theorem updLoop_pnb (env : Env) (batch : Int) (item : InventoryItem)
    (hco : ∀ sys p, env.getProduct sys item.model = GetResult.ok p →
      p.model = item.model) :
    ∀ (l : List String) (st : Store) (ws : List WriteCall) (sys m : String),
      (updateExternalLoop env batch item l st ws).2.2 =
        some (AbortKind.platformNotBehaving sys m) →
      m = item.model ∧
      ∃ c, getCacheItem (updateExternalLoop env batch item l st ws).1
          item.model sys = some c ∧ c.not_behaving = true := by
  intro l
  induction l with
  | nil => intro st ws sys m h; exact absurd h (by simp [updateExternalLoop])
  | cons system rest ih =>
    intro st ws sys m h
    simp only [updateExternalLoop] at h ⊢
    rcases hstep : (updateExternalSystemItem env batch st system item).2.2 with
      _ | e
    · simp only [hstep] at h ⊢
      exact ih _ _ sys m h
    · cases e
      · simp only [hstep] at h ⊢
        exact ih _ _ sys m h
      · simp only [hstep] at h ⊢
        exact ih _ _ sys m h
      · simp only [hstep] at h ⊢
        exact ih _ _ sys m h
      · simp only [hstep] at h ⊢
        have hsm : system = sys ∧ item.model = m := by
          simpa using h
        obtain ⟨hs, hmm⟩ := hsm
        subst hs
        rw [← hmm]
        exact ⟨rfl, updExt_pnb env batch st system item (hco system) hstep⟩

theorem syncOneModel_pnb (env : Env) (dg : String → GetResult) (batch : Int)
    (systems : List String) (ro : Bool) (st : Store) (model sys m : String)
    (hco : EnvCoherent env)
    (h : (syncOneModel env dg batch systems ro st model).2.2 =
      some (AbortKind.platformNotBehaving sys m)) :
    ∃ c, getCacheItem (syncOneModel env dg batch systems ro st model).1 m sys =
        some c ∧ c.not_behaving = true := by
  simp only [syncOneModel] at h ⊢
  rcases hinv : getInventoryItem (aggregateDeltas env batch systems ro model st).1
      model with _ | row
  · simp only [hinv] at h ⊢
    rcases hd : dg model with p | _ | _ | _
    · simp only [hd] at h ⊢
      simp only [syncModelItem] at h ⊢
      cases ro
      · simp only [Bool.false_eq_true, if_false] at h ⊢
        obtain ⟨hm, c, hc, hnb⟩ := updLoop_pnb env batch _
          (fun sys' p' hp' => hco sys' _ p' hp') systems _ [] sys m h
        rw [hm]
        exact ⟨c, hc, hnb⟩
      · simp only [if_true] at h
        exact absurd h (by simp)
    · simp only [hd] at h
      exact absurd h (by simp)
    · simp only [hd] at h
      exact absurd h (by simp)
    · simp only [hd] at h
      exact absurd h (by simp)
  · simp only [hinv] at h ⊢
    simp only [syncModelItem] at h ⊢
    cases ro
    · simp only [Bool.false_eq_true, if_false] at h ⊢
      obtain ⟨hm, c, hc, hnb⟩ := updLoop_pnb env batch _
        (fun sys' p' hp' => hco sys' _ p' hp') systems _ [] sys m h
      rw [hm]
      exact ⟨c, hc, hnb⟩
    · simp only [if_true] at h
      exact absurd h (by simp)

theorem syncLoop_pnb (env : Env) (dg : String → GetResult) (batch : Int)
    (systems : List String) (ro : Bool) (hco : EnvCoherent env) :
    ∀ (L : List String) (st : Store) (ws : List WriteCall) (sys m : String),
      (syncLoop env dg batch systems ro L st ws).2.2 =
        some (AbortKind.platformNotBehaving sys m) →
      ∃ c, getCacheItem (syncLoop env dg batch systems ro L st ws).1 m sys =
          some c ∧ c.not_behaving = true := by
  intro L
  induction L with
  | nil => intro st ws sys m h; exact absurd h (by simp [syncLoop])
  | cons model rest ih =>
    intro st ws sys m h
    simp only [syncLoop] at h ⊢
    rcases hstep : (syncOneModel env dg batch systems ro st model).2.2 with _ | ab
    · simp only [hstep] at h ⊢
      exact ih _ _ sys m h
    · simp only [hstep] at h ⊢
      have hab : ab = AbortKind.platformNotBehaving sys m := by simpa using h
      subst hab
      exact syncOneModel_pnb env dg batch systems ro st model sys m hco hstep

/-- C5 (amended): when an adapter's `UpdateProductStocks` raises
`PlatformNotBehavingError` for a `(marketplace, SKU)` pair, the engine sets
that pair's cache `not_behaving` flag to true — but the exception is not
absorbed: `Sync` re-raises it and the outer loop does not catch it, so the
batch aborts there (remaining adapters and SKUs are not processed and
`Sync` does not return normally). -/
theorem C5_pnb_flag_set_but_batch_aborts (env : Env) (dg : String → GetResult)
    (batch : Int) (systems : List String) (ro : Bool) (st : Store)
    (sys m : String) (hco : EnvCoherent env)
    (h : (Sync env dg batch systems ro st).2.2 =
      some (AbortKind.platformNotBehaving sys m)) :
    ∃ c, getCacheItem (Sync env dg batch systems ro st).1 m sys = some c ∧
      c.not_behaving = true :=
  syncLoop_pnb env dg batch systems ro hco (collectModels env systems) st []
    sys m h

/-- C5 witness: the batch on `pnbEnv` aborts with a
`PlatformNotBehavingError` from `("A", "X")`, and the aborted store has the
flag set for that pair. -/
theorem C5_witness :
    ∃ c, getCacheItem (Sync pnbEnv noDefault 1 ["A"] false pnbStore).1 "X" "A" =
        some c ∧ c.not_behaving = true :=
  C5_pnb_flag_set_but_batch_aborts pnbEnv noDefault 1 ["A"] false pnbStore
    "A" "X" (fun _ _ p h => by cases h; rfl) (by decide)

/-- C5 counterexample: the same batch does not return normally — `Sync`
terminates with the escaped `PlatformNotBehavingError` — and the remaining
SKU `Y` is never processed (its inventory row keeps batch id 0), refuting
"the batch continues and Sync() returns normally". -/
theorem C5_counterexample :
    (Sync pnbEnv noDefault 1 ["A"] false pnbStore).2.2 ≠ none ∧
    getInventoryItem (Sync pnbEnv noDefault 1 ["A"] false pnbStore).1 "Y" =
      some ⟨9, 0⟩ := by
  decide

/-- C10: cleanup never wipes the inventory on an empty snapshot — when the
queried marketplace lists zero product models, `ListDeletedSystemModels`
raises `CommunicationError` before any deletion and the inventory is
unchanged; when the listing is non-empty, exactly the models present locally
but absent from the listing are deleted. -/
theorem C10_cleanup_no_wipe (env : Env) (st : Store) (system : String) :
    (collectModels env [system] = [] →
      doCleanupProcedure env st system true = (st, true)) ∧
    (collectModels env [system] ≠ [] →
      (doCleanupProcedure env st system true).2 = false ∧
      ∀ m, getInventoryItem (doCleanupProcedure env st system true).1 m =
        (if m ∈ collectModels env [system] then getInventoryItem st m
         else none)) := by
  constructor
  · intro hempty
    have hlist : listDeletedSystemModels env st system true = none := by
      simp only [listDeletedSystemModels]
      rw [if_neg (by simp), if_pos hempty]
    simp only [doCleanupProcedure, hlist]
  · intro hne
    have hlist : listDeletedSystemModels env st system true =
        some ((st.inventory.map (fun e => e.1)).filter
          (fun x => !((collectModels env [system]).contains x))) := by
      simp only [listDeletedSystemModels]
      rw [if_neg (by simp), if_neg hne]
    simp only [doCleanupProcedure, hlist]
    refine ⟨by trivial, fun m => ?_⟩
    by_cases hm : m ∈ collectModels env [system]
    · rw [if_pos hm]
      unfold getInventoryItem deleteInventoryItems
      have hkeep := find_filter_keep (fun e => e.1 == m)
        (fun e => !(((st.inventory.map (fun e => e.1)).filter
          (fun x => !((collectModels env [system]).contains x))).contains e.1))
        st.inventory ?_
      · rw [hkeep]
      · intro e hpe
        have he1 : e.1 = m := by simpa using hpe
        have hdelf : ((st.inventory.map (fun e => e.1)).filter
            (fun x => !((collectModels env [system]).contains x))).contains m
              = false := by
          rw [Bool.eq_false_iff]
          intro hcon
          have hmem := List.elem_iff.mp hcon
          have h2 := (List.mem_filter.mp hmem).2
          have h2' : (collectModels env [system]).contains m = false := by
            simpa using h2
          have h3 : (collectModels env [system]).contains m = true :=
            List.elem_iff.mpr hm
          rw [h2'] at h3
          exact Bool.noConfusion h3
        simp only [he1, hdelf]
        rfl
    · rw [if_neg hm]
      unfold getInventoryItem deleteInventoryItems
      rcases horig : st.inventory.find? (fun e => e.1 == m) with _ | e
      · rcases hf : (st.inventory.filter
            (fun e => !(((st.inventory.map (fun e => e.1)).filter
              (fun x => !((collectModels env [system]).contains x))).contains
                e.1))).find? (fun e => e.1 == m) with _ | e
        · rw [hf]
          rfl
        · exfalso
          have hmem := List.mem_of_find?_eq_some hf
          have hpe := List.find?_some hf
          have hmem' := (List.mem_filter.mp hmem).1
          exact (List.find?_eq_none.mp horig e hmem') hpe
      · have he1 : e.1 = m := by simpa using List.find?_some horig
        have hcached : m ∈ st.inventory.map (fun e => e.1) := by
          rw [← he1]
          exact List.mem_map_of_mem _ (List.mem_of_find?_eq_some horig)
        have honm : (collectModels env [system]).contains m = false := by
          rw [Bool.eq_false_iff]
          intro hcon
          exact hm (List.elem_iff.mp hcon)
        have hdelm : ((st.inventory.map (fun e => e.1)).filter
            (fun x => !((collectModels env [system]).contains x))).contains m
              = true := by
          apply List.elem_iff.mpr
          apply List.mem_filter.mpr
          exact ⟨hcached, by rw [honm]; rfl⟩
        rw [find_filter_drop]
        · rfl
        · intro e' hpe'
          have he1' : e'.1 = m := by simpa using hpe'
          simp only [he1', hdelm]
          rfl

/-- C10 witness: with the non-empty listing `["A"]` the cleanup deletes
exactly the absent model `B` and keeps `A`; with an empty listing it raises
and leaves the two rows in place. -/
theorem C10_witness :
    (doCleanupProcedure cleanEnv cleanStore "OPENCART" true).2 = false ∧
    getInventoryItem (doCleanupProcedure cleanEnv cleanStore "OPENCART" true).1
      "A" = some ⟨4, 0⟩ ∧
    getInventoryItem (doCleanupProcedure cleanEnv cleanStore "OPENCART" true).1
      "B" = none ∧
    doCleanupProcedure emptyListEnv cleanStore "OPENCART" true =
      (cleanStore, true) := by
  have h1 := (C10_cleanup_no_wipe cleanEnv cleanStore "OPENCART").2 (by decide)
  have h2 := (C10_cleanup_no_wipe emptyListEnv cleanStore "OPENCART").1 (by decide)
  refine ⟨h1.1, ?_, ?_, h2⟩
  · rw [h1.2 "A", if_pos (by decide)]
    decide
  · rw [h1.2 "B", if_neg (by decide)]

/-! Characterization of `_UpdateExternalSystemItem` in each of its branches,
and frame lemmas for the loops of `Sync`. -/

theorem clamp_eq_max (x : Int) : (if x ≤ 0 then (0 : Int) else x) = max 0 x := by
  split <;> omega

theorem getInv_congr (st1 st2 : Store) (m : String)
    (h : st1.inventory = st2.inventory) :
    getInventoryItem st1 m = getInventoryItem st2 m := by
  unfold getInventoryItem
  rw [h]

theorem modelBase_congr (dg : String → GetResult) (st1 st2 : Store) (m : String)
    (h : getInventoryItem st1 m = getInventoryItem st2 m) :
    modelBase dg st1 m = modelBase dg st2 m := by
  unfold modelBase
  rw [h]

/-- The cache row after the pre-write freshening followed by a
`MarkNotBehaving` on the same key. -/
theorem cache_after_freshen_mark (st : Store) (sys key : String)
    (stocks batch : Int) (b : Bool) :
    getCacheItem (markNotBehaving
        (upsertInventorySystemCacheItem st sys key stocks batch) sys key b)
      key sys = some ⟨stocks, batch, b⟩ := by
  rcases hc0 : st.cache key sys with _ | c0
  · exact getCache_mark_some _ sys key b _
      (getCache_upsert_self_none st sys key stocks batch hc0)
  · exact getCache_mark_some _ sys key b _
      (getCache_upsert_self_some st sys key stocks batch c0 hc0)

theorem updExt_eq_skip (env : Env) (batch : Int) (st : Store) (sys : String)
    (item : InventoryItem) (p : Product)
    (hget : env.getProduct sys item.model = GetResult.ok p)
    (heq : item.stocks = p.stocks) :
    updateExternalSystemItem env batch st sys item =
      (upsertInventorySystemCacheItem st sys p.model p.stocks batch, [], none) := by
  simp only [updateExternalSystemItem, hget, if_pos heq]

theorem updExt_eq_pnb (env : Env) (batch : Int) (st : Store) (sys : String)
    (item : InventoryItem) (p : Product)
    (hget : env.getProduct sys item.model = GetResult.ok p)
    (hne : ¬item.stocks = p.stocks)
    (hu : env.updateProductStocks sys item.model item.stocks =
      UpdateOutcome.platformNotBehaving) :
    updateExternalSystemItem env batch st sys item =
      (markNotBehaving (upsertInventorySystemCacheItem st sys p.model p.stocks batch)
          sys item.model true,
       [⟨sys, item.model, p.stocks, item.stocks, UpdateOutcome.platformNotBehaving⟩],
       some UpdErr.platformNotBehaving) := by
  simp only [updateExternalSystemItem, hget, if_neg hne, hu]

theorem updExt_eq_commError (env : Env) (batch : Int) (st : Store) (sys : String)
    (item : InventoryItem) (p : Product)
    (hget : env.getProduct sys item.model = GetResult.ok p)
    (hne : ¬item.stocks = p.stocks)
    (hu : env.updateProductStocks sys item.model item.stocks =
      UpdateOutcome.commError) :
    updateExternalSystemItem env batch st sys item =
      (upsertInventorySystemCacheItem st sys p.model p.stocks batch,
       [⟨sys, item.model, p.stocks, item.stocks, UpdateOutcome.commError⟩],
       some UpdErr.commError) := by
  simp only [updateExternalSystemItem, hget, if_neg hne, hu]

theorem updExt_eq_notFound (env : Env) (batch : Int) (st : Store) (sys : String)
    (item : InventoryItem) (p : Product)
    (hget : env.getProduct sys item.model = GetResult.ok p)
    (hne : ¬item.stocks = p.stocks)
    (hu : env.updateProductStocks sys item.model item.stocks =
      UpdateOutcome.notFound) :
    updateExternalSystemItem env batch st sys item =
      (upsertInventorySystemCacheItem st sys p.model p.stocks batch,
       [⟨sys, item.model, p.stocks, item.stocks, UpdateOutcome.notFound⟩],
       some UpdErr.notFound) := by
  simp only [updateExternalSystemItem, hget, if_neg hne, hu]

theorem updExt_ok_parts (env : Env) (batch : Int) (st : Store) (sys : String)
    (item : InventoryItem) (p : Product) (r : WriteResult)
    (hget : env.getProduct sys item.model = GetResult.ok p)
    (hne : ¬item.stocks = p.stocks)
    (hu : env.updateProductStocks sys item.model item.stocks =
      UpdateOutcome.ok r)
    (hm : p.model = item.model) :
    (updateExternalSystemItem env batch st sys item).2.1 =
      [⟨sys, item.model, p.stocks, item.stocks, UpdateOutcome.ok r⟩] ∧
    (updateExternalSystemItem env batch st sys item).2.2 = none ∧
    (updateExternalSystemItem env batch st sys item).1.inventory =
      st.inventory ∧
    (∀ m' s', ¬(m' = item.model ∧ s' = sys) →
      getCacheItem (updateExternalSystemItem env batch st sys item).1 m' s' =
        getCacheItem st m' s') ∧
    (∃ c, getCacheItem (updateExternalSystemItem env batch st sys item).1
        item.model sys = some c ∧
      c.stocks = (if r.error_code = 0 then item.stocks else p.stocks) ∧
      c.not_behaving = false) := by
  simp only [updateExternalSystemItem, hget, if_neg hne, hu]
  rw [hm]
  by_cases hec : r.error_code = 0
  · rw [if_pos hec]
    refine ⟨rfl, rfl, by simp, fun m' s' hms => ?_, ?_⟩
    · rw [getCache_upsert_other _ _ _ _ _ _ _ hms]
      show getCacheItem (markNotBehaving
        (upsertInventorySystemCacheItem st sys item.model p.stocks batch)
          sys item.model false) m' s' = _
      rw [getCache_mark_other _ _ _ _ _ _ hms,
        getCache_upsert_other _ _ _ _ _ _ _ hms]
    · have hrow := cache_after_freshen_mark st sys item.model p.stocks batch false
      refine ⟨⟨item.stocks, item.last_sync_batch_id, false⟩, ?_,
        by rw [if_pos hec], rfl⟩
      exact getCache_upsert_self_some _ sys item.model item.stocks
        item.last_sync_batch_id ⟨p.stocks, batch, false⟩ hrow
  · rw [if_neg hec]
    refine ⟨rfl, rfl, by simp, fun m' s' hms => ?_, ?_⟩
    · show getCacheItem (markNotBehaving
        (upsertInventorySystemCacheItem st sys item.model p.stocks batch)
          sys item.model false) m' s' = _
      rw [getCache_mark_other _ _ _ _ _ _ hms,
        getCache_upsert_other _ _ _ _ _ _ _ hms]
    · have hrow := cache_after_freshen_mark st sys item.model p.stocks batch false
      exact ⟨_, hrow, by rw [if_neg hec], rfl⟩

theorem updExt_inventory (env : Env) (batch : Int) (st : Store) (sys : String)
    (item : InventoryItem) :
    (updateExternalSystemItem env batch st sys item).1.inventory =
      st.inventory := by
  rcases hg : env.getProduct sys item.model with p | _ | _ | _
  · by_cases heq : item.stocks = p.stocks
    · rw [updExt_eq_skip env batch st sys item p hg heq]
      simp
    · rcases hu : env.updateProductStocks sys item.model item.stocks with
        r | _ | _ | _
      · simp only [updateExternalSystemItem, hg, if_neg heq, hu]
        split <;> simp
      · rw [updExt_eq_commError env batch st sys item p hg heq hu]
        simp
      · rw [updExt_eq_notFound env batch st sys item p hg heq hu]
        simp
      · rw [updExt_eq_pnb env batch st sys item p hg heq hu]
        simp
  · simp [updateExternalSystemItem, hg]
  · simp [updateExternalSystemItem, hg]
  · simp [updateExternalSystemItem, hg]

theorem updExt_cache_other (env : Env) (batch : Int) (st : Store) (sys : String)
    (item : InventoryItem)
    (hcoh : ∀ p, env.getProduct sys item.model = GetResult.ok p →
      p.model = item.model)
    (m' s' : String) (hms : ¬(m' = item.model ∧ s' = sys)) :
    getCacheItem (updateExternalSystemItem env batch st sys item).1 m' s' =
      getCacheItem st m' s' := by
  rcases hg : env.getProduct sys item.model with p | _ | _ | _
  · have hm := hcoh p hg
    by_cases heq : item.stocks = p.stocks
    · rw [updExt_eq_skip env batch st sys item p hg heq]
      rw [hm]
      exact getCache_upsert_other _ _ _ _ _ _ _ hms
    · rcases hu : env.updateProductStocks sys item.model item.stocks with
        r | _ | _ | _
      · exact (updExt_ok_parts env batch st sys item p r hg heq hu hm).2.2.2.1
          m' s' hms
      · rw [updExt_eq_commError env batch st sys item p hg heq hu]
        rw [hm]
        exact getCache_upsert_other _ _ _ _ _ _ _ hms
      · rw [updExt_eq_notFound env batch st sys item p hg heq hu]
        rw [hm]
        exact getCache_upsert_other _ _ _ _ _ _ _ hms
      · rw [updExt_eq_pnb env batch st sys item p hg heq hu]
        show getCacheItem (markNotBehaving _ sys item.model true) m' s' = _
        rw [getCache_mark_other _ _ _ _ _ _ hms, hm,
          getCache_upsert_other _ _ _ _ _ _ _ hms]
  · simp [updateExternalSystemItem, hg]
  · simp [updateExternalSystemItem, hg]
  · simp [updateExternalSystemItem, hg]

theorem updLoop_inventory (env : Env) (batch : Int) (item : InventoryItem) :
    ∀ (l : List String) (st : Store) (ws : List WriteCall),
      (updateExternalLoop env batch item l st ws).1.inventory =
        st.inventory := by
  intro l
  induction l with
  | nil => intro st ws; rfl
  | cons sys rest ih =>
    intro st ws
    simp only [updateExternalLoop]
    rcases hstep : (updateExternalSystemItem env batch st sys item).2.2 with _ | e
    · simp only [hstep]
      rw [ih, updExt_inventory]
    · cases e
      · simp only [hstep]
        rw [ih, updExt_inventory]
      · simp only [hstep]
        rw [ih, updExt_inventory]
      · simp only [hstep]
        rw [ih, updExt_inventory]
      · simp only [hstep]
        exact updExt_inventory env batch st sys item

theorem updLoop_cache_other (env : Env) (batch : Int) (item : InventoryItem)
    (hcoh : ∀ sys p, env.getProduct sys item.model = GetResult.ok p →
      p.model = item.model) :
    ∀ (l : List String) (st : Store) (ws : List WriteCall) (m' s' : String),
      m' ≠ item.model →
      getCacheItem (updateExternalLoop env batch item l st ws).1 m' s' =
        getCacheItem st m' s' := by
  intro l
  induction l with
  | nil => intro st ws m' s' hm'; rfl
  | cons sys rest ih =>
    intro st ws m' s' hm'
    have hstep1 := updExt_cache_other env batch st sys item (hcoh sys) m' s'
      (fun hc => hm' hc.1)
    simp only [updateExternalLoop]
    rcases hstep : (updateExternalSystemItem env batch st sys item).2.2 with _ | e
    · simp only [hstep]
      rw [ih _ _ m' s' hm', hstep1]
    · cases e
      · simp only [hstep]
        rw [ih _ _ m' s' hm', hstep1]
      · simp only [hstep]
        rw [ih _ _ m' s' hm', hstep1]
      · simp only [hstep]
        rw [ih _ _ m' s' hm', hstep1]
      · simp only [hstep]
        exact hstep1

theorem updLoop_cache_nonmember (env : Env) (batch : Int)
    (item : InventoryItem)
    (hcoh : ∀ sys p, env.getProduct sys item.model = GetResult.ok p →
      p.model = item.model) :
    ∀ (l : List String) (st : Store) (ws : List WriteCall) (s' : String),
      s' ∉ l →
      getCacheItem (updateExternalLoop env batch item l st ws).1
          item.model s' = getCacheItem st item.model s' := by
  intro l
  induction l with
  | nil => intro st ws s' hs'; rfl
  | cons sys rest ih =>
    intro st ws s' hs'
    have hs0 : s' ≠ sys := fun hc => hs' (hc ▸ List.mem_cons_self sys rest)
    have hsr : s' ∉ rest := fun hc => hs' (List.mem_cons_of_mem sys hc)
    have hstep1 := updExt_cache_other env batch st sys item (hcoh sys)
      item.model s' (fun hc => hs0 hc.2)
    simp only [updateExternalLoop]
    rcases hstep : (updateExternalSystemItem env batch st sys item).2.2 with _ | e
    · simp only [hstep]
      rw [ih _ _ s' hsr, hstep1]
    · cases e
      · simp only [hstep]
        rw [ih _ _ s' hsr, hstep1]
      · simp only [hstep]
        rw [ih _ _ s' hsr, hstep1]
      · simp only [hstep]
        rw [ih _ _ s' hsr, hstep1]
      · simp only [hstep]
        exact hstep1

theorem updLoop_allok (env : Env) (batch : Int) (item : InventoryItem)
    (hcoh : ∀ sys p, env.getProduct sys item.model = GetResult.ok p →
      p.model = item.model) :
    ∀ (l : List String), l.Nodup →
      (∀ sys ∈ l, ∃ cur, env.getProduct sys item.model =
        GetResult.ok ⟨item.model, cur⟩) →
      (∀ sys ∈ l, ∀ v, ∃ d, env.updateProductStocks sys item.model v =
        UpdateOutcome.ok ⟨0, d⟩) →
      ∀ (st : Store) (ws : List WriteCall),
        (updateExternalLoop env batch item l st ws).2.2 = none ∧
        ∀ sys ∈ l, ∃ c,
          getCacheItem (updateExternalLoop env batch item l st ws).1
              item.model sys = some c ∧
          c.stocks = item.stocks := by
  intro l
  induction l with
  | nil => intro _ _ _ st ws; exact ⟨rfl, by simp⟩
  | cons sys0 rest ih =>
    intro hnd hget hupd st ws
    obtain ⟨cur, hg⟩ := hget sys0 (List.mem_cons_self _ _)
    have hndr : rest.Nodup := (List.nodup_cons.mp hnd).2
    have hmem0 : sys0 ∉ rest := (List.nodup_cons.mp hnd).1
    have ihx := ih hndr (fun s hs => hget s (List.mem_cons_of_mem _ hs))
      (fun s hs v => hupd s (List.mem_cons_of_mem _ hs) v)
    simp only [updateExternalLoop]
    by_cases heq : item.stocks = (⟨item.model, cur⟩ : Product).stocks
    · have hstep := updExt_eq_skip env batch st sys0 item ⟨item.model, cur⟩ hg heq
      simp only [hstep]
      obtain ⟨ih1, ih2⟩ := ihx
        (upsertInventorySystemCacheItem st sys0 item.model cur batch) (ws ++ [])
      refine ⟨ih1, fun sys hsys => ?_⟩
      rcases List.mem_cons.mp hsys with hsys0 | hmemr
      · subst hsys0
        rw [updLoop_cache_nonmember env batch item hcoh rest _ _ sys hmem0]
        rcases hc0 : st.cache item.model sys with _ | c0
        · exact ⟨_, getCache_upsert_self_none st sys item.model cur batch hc0,
            heq.symm⟩
        · exact ⟨_, getCache_upsert_self_some st sys item.model cur batch c0 hc0,
            heq.symm⟩
      · exact ih2 sys hmemr
    · obtain ⟨d, hu⟩ := hupd sys0 (List.mem_cons_self _ _) item.stocks
      obtain ⟨hwlist, hnone, hinv, hother, c, hcself, hcstocks, hcnb⟩ :=
        updExt_ok_parts env batch st sys0 item ⟨item.model, cur⟩ ⟨0, d⟩
          hg heq hu rfl
      simp only [hnone, hwlist]
      obtain ⟨ih1, ih2⟩ := ihx (updateExternalSystemItem env batch st sys0 item).1
        (ws ++ [⟨sys0, item.model, cur, item.stocks, UpdateOutcome.ok ⟨0, d⟩⟩])
      refine ⟨ih1, fun sys hsys => ?_⟩
      rcases List.mem_cons.mp hsys with hsys0 | hmemr
      · subst hsys0
        rw [updLoop_cache_nonmember env batch item hcoh rest _ _ sys hmem0]
        exact ⟨c, hcself, by simpa using hcstocks⟩
      · exact ih2 sys hmemr

theorem updLoop_writes (env : Env) (batch : Int) (item : InventoryItem)
    (hcoh : ∀ sys p, env.getProduct sys item.model = GetResult.ok p →
      p.model = item.model) :
    ∀ (l : List String), l.Nodup → ∀ (st : Store) (ws0 : List WriteCall),
      ∀ w ∈ (updateExternalLoop env batch item l st ws0).2.1,
        w ∈ ws0 ∨
        (w.model = item.model ∧ w.value = item.stocks ∧ w.system ∈ l ∧
          ∀ r, w.outcome = UpdateOutcome.ok r →
            ∃ c, getCacheItem (updateExternalLoop env batch item l st ws0).1
                item.model w.system = some c ∧
              c.stocks = (if r.error_code = 0 then item.stocks
                else w.previous)) := by
  intro l
  induction l with
  | nil =>
    intro _ st ws0 w hw
    exact Or.inl hw
  | cons sys0 rest ih =>
    intro hnd st ws0 w hw
    have hndr : rest.Nodup := (List.nodup_cons.mp hnd).2
    have hmem0 : sys0 ∉ rest := (List.nodup_cons.mp hnd).1
    simp only [updateExternalLoop] at hw ⊢
    rcases hg : env.getProduct sys0 item.model with p | _ | _ | _
    · have hm := hcoh sys0 p hg
      by_cases heq : item.stocks = p.stocks
      · have hstep := updExt_eq_skip env batch st sys0 item p hg heq
        simp only [hstep] at hw ⊢
        rcases ih hndr _ _ w hw with hl | hr
        · exact Or.inl (by simpa using hl)
        · exact Or.inr ⟨hr.1, hr.2.1, List.mem_cons_of_mem _ hr.2.2.1,
            hr.2.2.2⟩
      · rcases hu : env.updateProductStocks sys0 item.model item.stocks with
          r | _ | _ | _
        · obtain ⟨hwlist, hnone, hinv, hother, c, hcself, hcstocks, hcnb⟩ :=
            updExt_ok_parts env batch st sys0 item p r hg heq hu hm
          simp only [hnone, hwlist] at hw ⊢
          rcases ih hndr _ _ w hw with hl | hr
          · rcases List.mem_append.mp hl with hl0 | hl1
            · exact Or.inl hl0
            · have hw0 : w = ⟨sys0, item.model, p.stocks, item.stocks,
                  UpdateOutcome.ok r⟩ := by simpa using hl1
              subst hw0
              refine Or.inr ⟨rfl, rfl, List.mem_cons_self _ _,
                fun r' hr' => ?_⟩
              have hrr : r' = r := by
                have := hr'.symm
                simpa using this
              subst hrr
              rw [updLoop_cache_nonmember env batch item hcoh rest _ _ sys0
                hmem0]
              exact ⟨c, hcself, by rw [hcstocks]⟩
          · exact Or.inr ⟨hr.1, hr.2.1, List.mem_cons_of_mem _ hr.2.2.1,
              hr.2.2.2⟩
        · have hstep := updExt_eq_commError env batch st sys0 item p hg heq hu
          simp only [hstep] at hw ⊢
          rcases ih hndr _ _ w hw with hl | hr
          · rcases List.mem_append.mp hl with hl0 | hl1
            · exact Or.inl hl0
            · have hw0 : w = ⟨sys0, item.model, p.stocks, item.stocks,
                  UpdateOutcome.commError⟩ := by simpa using hl1
              subst hw0
              exact Or.inr ⟨rfl, rfl, List.mem_cons_self _ _,
                fun r' hr' => absurd hr' (by simp)⟩
          · exact Or.inr ⟨hr.1, hr.2.1, List.mem_cons_of_mem _ hr.2.2.1,
              hr.2.2.2⟩
        · have hstep := updExt_eq_notFound env batch st sys0 item p hg heq hu
          simp only [hstep] at hw ⊢
          rcases ih hndr _ _ w hw with hl | hr
          · rcases List.mem_append.mp hl with hl0 | hl1
            · exact Or.inl hl0
            · have hw0 : w = ⟨sys0, item.model, p.stocks, item.stocks,
                  UpdateOutcome.notFound⟩ := by simpa using hl1
              subst hw0
              exact Or.inr ⟨rfl, rfl, List.mem_cons_self _ _,
                fun r' hr' => absurd hr' (by simp)⟩
          · exact Or.inr ⟨hr.1, hr.2.1, List.mem_cons_of_mem _ hr.2.2.1,
              hr.2.2.2⟩
        · have hstep := updExt_eq_pnb env batch st sys0 item p hg heq hu
          simp only [hstep] at hw ⊢
          rcases List.mem_append.mp hw with hl0 | hl1
          · exact Or.inl hl0
          · have hw0 : w = ⟨sys0, item.model, p.stocks, item.stocks,
                UpdateOutcome.platformNotBehaving⟩ := by simpa using hl1
            subst hw0
            exact Or.inr ⟨rfl, rfl, List.mem_cons_self _ _,
              fun r' hr' => absurd hr' (by simp)⟩
    · simp only [updateExternalSystemItem, hg] at hw ⊢
      rcases ih hndr _ _ w hw with hl | hr
      · exact Or.inl (by simpa using hl)
      · exact Or.inr ⟨hr.1, hr.2.1, List.mem_cons_of_mem _ hr.2.2.1, hr.2.2.2⟩
    · simp only [updateExternalSystemItem, hg] at hw ⊢
      rcases ih hndr _ _ w hw with hl | hr
      · exact Or.inl (by simpa using hl)
      · exact Or.inr ⟨hr.1, hr.2.1, List.mem_cons_of_mem _ hr.2.2.1, hr.2.2.2⟩
    · simp only [updateExternalSystemItem, hg] at hw ⊢
      rcases ih hndr _ _ w hw with hl | hr
      · exact Or.inl (by simpa using hl)
      · exact Or.inr ⟨hr.1, hr.2.1, List.mem_cons_of_mem _ hr.2.2.1, hr.2.2.2⟩

/-! Per-model characterization of `Sync`'s loop body. -/

theorem clampedItem_model (item0 : InventoryItem) (delta batch : Int) :
    (clampedItem item0 delta batch).model = item0.model := rfl

theorem clampedItem_stocks_max (item0 : InventoryItem) (delta batch : Int) :
    (clampedItem item0 delta batch).stocks = max 0 (item0.stocks + delta) :=
  clamp_eq_max _

theorem syncModelItem_false (env : Env) (batch : Int) (systems : List String)
    (st1 : Store) (item0 : InventoryItem) (delta : Int) :
    syncModelItem env batch systems false st1 item0 delta =
      updateExternalLoop env batch (clampedItem item0 delta batch) systems
        (upsertInventoryItem st1 (clampedItem item0 delta batch)) [] := rfl

theorem syncModelItem_frame (env : Env) (batch : Int) (systems : List String)
    (st1 : Store) (item0 : InventoryItem) (delta : Int) (key : String)
    (hkey : item0.model = key)
    (hcoh : ∀ sys p, env.getProduct sys item0.model = GetResult.ok p →
      p.model = item0.model)
    (m' : String) (hm'k : m' ≠ key) :
    getInventoryItem (syncModelItem env batch systems false st1 item0 delta).1
        m' = getInventoryItem st1 m' ∧
    ∀ s', getCacheItem (syncModelItem env batch systems false st1 item0 delta).1
        m' s' = getCacheItem st1 m' s' := by
  subst hkey
  rw [syncModelItem_false]
  have hcoh' : ∀ sys p, env.getProduct sys (clampedItem item0 delta batch).model =
      GetResult.ok p → p.model = (clampedItem item0 delta batch).model := hcoh
  have hm'' : m' ≠ (clampedItem item0 delta batch).model := hm'k
  constructor
  · rw [getInv_congr _ _ m' (updLoop_inventory env batch
      (clampedItem item0 delta batch) systems _ [])]
    exact getInv_upsert_other st1 _ m' hm''
  · intro s'
    rw [updLoop_cache_other env batch (clampedItem item0 delta batch) hcoh'
      systems _ [] m' s' hm'']
    show (upsertInventoryItem st1 _).cache m' s' = _
    rw [upsertInv_cache]
    rfl

theorem syncModelItem_inventory (env : Env) (batch : Int)
    (systems : List String) (st1 : Store) (item0 : InventoryItem)
    (delta : Int) (key : String) (hkey : item0.model = key) :
    getInventoryItem (syncModelItem env batch systems false st1 item0 delta).1
      key = some ⟨max 0 (item0.stocks + delta), batch⟩ := by
  subst hkey
  rw [syncModelItem_false]
  rw [getInv_congr _ _ _ (updLoop_inventory env batch
    (clampedItem item0 delta batch) systems _ [])]
  have hself := getInv_upsert_self st1 (clampedItem item0 delta batch)
  rw [clampedItem_model] at hself
  rw [hself]
  rw [show (clampedItem item0 delta batch).stocks =
    max 0 (item0.stocks + delta) from clampedItem_stocks_max item0 delta batch]
  rfl

theorem syncModelItem_writes (env : Env) (batch : Int) (systems : List String)
    (st1 : Store) (item0 : InventoryItem) (delta : Int) (key : String)
    (hkey : item0.model = key)
    (hcoh : ∀ sys p, env.getProduct sys item0.model = GetResult.ok p →
      p.model = item0.model)
    (hnds : systems.Nodup) :
    ∀ w ∈ (syncModelItem env batch systems false st1 item0 delta).2.1,
      w.model = key ∧ w.value = max 0 (item0.stocks + delta) ∧
      ∀ r, w.outcome = UpdateOutcome.ok r →
        ∃ c, getCacheItem
            (syncModelItem env batch systems false st1 item0 delta).1
            key w.system = some c ∧
          c.stocks = (if r.error_code = 0 then w.value else w.previous) := by
  subst hkey
  intro w hw
  rw [syncModelItem_false] at hw ⊢
  have hcoh' : ∀ sys p, env.getProduct sys (clampedItem item0 delta batch).model =
      GetResult.ok p → p.model = (clampedItem item0 delta batch).model := hcoh
  rcases updLoop_writes env batch (clampedItem item0 delta batch) hcoh' systems
    hnds _ [] w hw with hl | hr
  · exact absurd hl (by simp)
  · refine ⟨hr.1, ?_, fun r hrr => ?_⟩
    · rw [hr.2.1, clampedItem_stocks_max]
    · obtain ⟨c, hc, hcs⟩ := hr.2.2.2 r hrr
      refine ⟨c, hc, ?_⟩
      rw [hcs, hr.2.1]

theorem syncModelItem_allok (env : Env) (batch : Int) (systems : List String)
    (st1 : Store) (item0 : InventoryItem) (delta : Int) (key : String)
    (hkey : item0.model = key)
    (hcoh : ∀ sys p, env.getProduct sys item0.model = GetResult.ok p →
      p.model = item0.model)
    (hnds : systems.Nodup)
    (hget : ∀ sys ∈ systems, ∃ cur, env.getProduct sys key =
      GetResult.ok ⟨key, cur⟩)
    (hupd : ∀ sys ∈ systems, ∀ v, ∃ d,
      env.updateProductStocks sys key v = UpdateOutcome.ok ⟨0, d⟩) :
    (syncModelItem env batch systems false st1 item0 delta).2.2 = none ∧
    ∀ sys ∈ systems, ∃ c,
      getCacheItem (syncModelItem env batch systems false st1 item0 delta).1
          key sys = some c ∧
      c.stocks = max 0 (item0.stocks + delta) := by
  subst hkey
  rw [syncModelItem_false]
  have hcoh' : ∀ sys p, env.getProduct sys (clampedItem item0 delta batch).model =
      GetResult.ok p → p.model = (clampedItem item0 delta batch).model := hcoh
  have hget' : ∀ sys ∈ systems, ∃ cur,
      env.getProduct sys (clampedItem item0 delta batch).model =
        GetResult.ok ⟨(clampedItem item0 delta batch).model, cur⟩ := hget
  have hupd' : ∀ sys ∈ systems, ∀ v, ∃ d,
      env.updateProductStocks sys (clampedItem item0 delta batch).model v =
        UpdateOutcome.ok ⟨0, d⟩ := hupd
  obtain ⟨h1, h2⟩ := updLoop_allok env batch (clampedItem item0 delta batch)
    hcoh' systems hnds hget' hupd'
    (upsertInventoryItem st1 (clampedItem item0 delta batch)) []
  refine ⟨h1, fun sys hsys => ?_⟩
  obtain ⟨c, hc, hcs⟩ := h2 sys hsys
  exact ⟨c, hc, by rw [hcs, clampedItem_stocks_max]⟩

theorem syncOneModel_frame (env : Env) (dg : String → GetResult) (batch : Int)
    (systems : List String) (st : Store) (model : String)
    (hco : EnvCoherent env) (hdg : GetCoherent dg)
    (m' : String) (hm' : m' ≠ model) :
    getInventoryItem (syncOneModel env dg batch systems false st model).1 m' =
      getInventoryItem st m' ∧
    ∀ s', getCacheItem (syncOneModel env dg batch systems false st model).1
      m' s' = getCacheItem st m' s' := by
  obtain ⟨hai, hac, hal, had⟩ := aggregateDeltas_spec env batch model false
    systems st
  have hinv1 : getInventoryItem
      (aggregateDeltas env batch systems false model st).1 m' =
      getInventoryItem st m' := getInv_congr _ _ _ hai
  have hcache1 : ∀ s', getCacheItem
      (aggregateDeltas env batch systems false model st).1 m' s' =
      getCacheItem st m' s' := fun s' => by
    show (aggregateDeltas env batch systems false model st).1.cache m' s' =
      st.cache m' s'
    rw [hac]
  simp only [syncOneModel]
  rcases hinv : getInventoryItem
      (aggregateDeltas env batch systems false model st).1 model with _ | row
  · rcases hd : dg model with p | _ | _ | _
    · have hpm : p.model = model := hdg model p hd
      obtain ⟨hf1, hf2⟩ := syncModelItem_frame env batch systems
        (aggregateDeltas env batch systems false model st).1
        ⟨p.model, p.stocks, batch⟩
        (aggregateDeltas env batch systems false model st).2 model hpm
        (fun sys q h => hco sys _ q h) m' hm'
      exact ⟨hf1.trans hinv1, fun s' => (hf2 s').trans (hcache1 s')⟩
    · exact ⟨hinv1, hcache1⟩
    · exact ⟨hinv1, hcache1⟩
    · exact ⟨hinv1, hcache1⟩
  · obtain ⟨hf1, hf2⟩ := syncModelItem_frame env batch systems
      (aggregateDeltas env batch systems false model st).1
      ⟨model, row.stocks, row.last_sync_batch_id⟩
      (aggregateDeltas env batch systems false model st).2 model rfl
      (fun sys q h => hco sys _ q h) m' hm'
    exact ⟨hf1.trans hinv1, fun s' => (hf2 s').trans (hcache1 s')⟩

theorem syncOneModel_inventory (env : Env) (dg : String → GetResult)
    (batch : Int) (systems : List String) (st : Store) (model : String)
    (b : Int) (hdg : GetCoherent dg)
    (hb : modelBase dg st model = some b) :
    getInventoryItem (syncOneModel env dg batch systems false st model).1
      model = some ⟨max 0 (b + modelDelta env st systems model), batch⟩ := by
  obtain ⟨hai, hac, hal, had⟩ := aggregateDeltas_spec env batch model false
    systems st
  have hinv1 : getInventoryItem
      (aggregateDeltas env batch systems false model st).1 model =
      getInventoryItem st model := getInv_congr _ _ _ hai
  simp only [syncOneModel]
  unfold modelBase at hb
  rcases hinv : getInventoryItem st model with _ | row
  · rw [hinv] at hb
    rcases hd : dg model with p | _ | _ | _
    · rw [hd] at hb
      have hbp : p.stocks = b := by simpa using hb
      have hpm : p.model = model := hdg model p hd
      simp only [hinv1.trans hinv, hd]
      have hres := syncModelItem_inventory env batch systems
        (aggregateDeltas env batch systems false model st).1
        ⟨p.model, p.stocks, batch⟩
        (aggregateDeltas env batch systems false model st).2 model hpm
      rw [hres, had, hbp]
    · rw [hd] at hb
      exact absurd hb (by simp)
    · rw [hd] at hb
      exact absurd hb (by simp)
    · rw [hd] at hb
      exact absurd hb (by simp)
  · rw [hinv] at hb
    have hbr : row.stocks = b := by simpa using hb
    simp only [hinv1.trans hinv]
    have hres := syncModelItem_inventory env batch systems
      (aggregateDeltas env batch systems false model st).1
      ⟨model, row.stocks, row.last_sync_batch_id⟩
      (aggregateDeltas env batch systems false model st).2 model rfl
    rw [hres, had, hbr]

theorem syncOneModel_writes (env : Env) (dg : String → GetResult) (batch : Int)
    (systems : List String) (st : Store) (model : String)
    (hco : EnvCoherent env) (hdg : GetCoherent dg) (hnds : systems.Nodup) :
    ∀ w ∈ (syncOneModel env dg batch systems false st model).2.1,
      ∃ b, modelBase dg st model = some b ∧ w.model = model ∧
        w.value = max 0 (b + modelDelta env st systems model) ∧
        ∀ r, w.outcome = UpdateOutcome.ok r →
          ∃ c, getCacheItem
              (syncOneModel env dg batch systems false st model).1
              model w.system = some c ∧
            c.stocks = (if r.error_code = 0 then w.value else w.previous) := by
  obtain ⟨hai, hac, hal, had⟩ := aggregateDeltas_spec env batch model false
    systems st
  have hinv1 : getInventoryItem
      (aggregateDeltas env batch systems false model st).1 model =
      getInventoryItem st model := getInv_congr _ _ _ hai
  intro w hw
  simp only [syncOneModel] at hw ⊢
  rcases hinv : getInventoryItem st model with _ | row
  · rcases hd : dg model with p | _ | _ | _
    · have hpm : p.model = model := hdg model p hd
      simp only [hinv1.trans hinv, hd] at hw ⊢
      obtain ⟨h1, h2, h3⟩ := syncModelItem_writes env batch systems
        (aggregateDeltas env batch systems false model st).1
        ⟨p.model, p.stocks, batch⟩
        (aggregateDeltas env batch systems false model st).2 model hpm
        (fun sys q h => hco sys _ q h) hnds w hw
      refine ⟨p.stocks, ?_, h1, by rw [h2, had], h3⟩
      unfold modelBase
      rw [hinv, hd]
    · simp only [hinv1.trans hinv, hd] at hw
      exact absurd hw (by simp)
    · simp only [hinv1.trans hinv, hd] at hw
      exact absurd hw (by simp)
    · simp only [hinv1.trans hinv, hd] at hw
      exact absurd hw (by simp)
  · simp only [hinv1.trans hinv] at hw ⊢
    obtain ⟨h1, h2, h3⟩ := syncModelItem_writes env batch systems
      (aggregateDeltas env batch systems false model st).1
      ⟨model, row.stocks, row.last_sync_batch_id⟩
      (aggregateDeltas env batch systems false model st).2 model rfl
      (fun sys q h => hco sys _ q h) hnds w hw
    refine ⟨row.stocks, ?_, h1, by rw [h2, had], h3⟩
    unfold modelBase
    rw [hinv]

theorem syncOneModel_allok (env : Env) (dg : String → GetResult) (batch : Int)
    (systems : List String) (st : Store) (model : String) (b : Int)
    (hco : EnvCoherent env) (hdg : GetCoherent dg) (hnds : systems.Nodup)
    (hget : ∀ sys ∈ systems, ∃ cur, env.getProduct sys model =
      GetResult.ok ⟨model, cur⟩)
    (hupd : ∀ sys ∈ systems, ∀ v, ∃ d,
      env.updateProductStocks sys model v = UpdateOutcome.ok ⟨0, d⟩)
    (hb : modelBase dg st model = some b) :
    (syncOneModel env dg batch systems false st model).2.2 = none ∧
    ∀ sys ∈ systems, ∃ c,
      getCacheItem (syncOneModel env dg batch systems false st model).1
          model sys = some c ∧
      c.stocks = max 0 (b + modelDelta env st systems model) := by
  obtain ⟨hai, hac, hal, had⟩ := aggregateDeltas_spec env batch model false
    systems st
  have hinv1 : getInventoryItem
      (aggregateDeltas env batch systems false model st).1 model =
      getInventoryItem st model := getInv_congr _ _ _ hai
  simp only [syncOneModel]
  unfold modelBase at hb
  rcases hinv : getInventoryItem st model with _ | row
  · rw [hinv] at hb
    rcases hd : dg model with p | _ | _ | _
    · rw [hd] at hb
      have hbp : p.stocks = b := by simpa using hb
      have hpm : p.model = model := hdg model p hd
      simp only [hinv1.trans hinv, hd]
      obtain ⟨h1, h2⟩ := syncModelItem_allok env batch systems
        (aggregateDeltas env batch systems false model st).1
        ⟨p.model, p.stocks, batch⟩
        (aggregateDeltas env batch systems false model st).2 model hpm
        (fun sys q h => hco sys _ q h) hnds hget hupd
      refine ⟨h1, fun sys hsys => ?_⟩
      obtain ⟨c, hc, hcs⟩ := h2 sys hsys
      exact ⟨c, hc, by rw [hcs, had, hbp]⟩
    · rw [hd] at hb
      exact absurd hb (by simp)
    · rw [hd] at hb
      exact absurd hb (by simp)
    · rw [hd] at hb
      exact absurd hb (by simp)
  · rw [hinv] at hb
    have hbr : row.stocks = b := by simpa using hb
    simp only [hinv1.trans hinv]
    obtain ⟨h1, h2⟩ := syncModelItem_allok env batch systems
      (aggregateDeltas env batch systems false model st).1
      ⟨model, row.stocks, row.last_sync_batch_id⟩
      (aggregateDeltas env batch systems false model st).2 model rfl
      (fun sys q h => hco sys _ q h) hnds hget hupd
    refine ⟨h1, fun sys hsys => ?_⟩
    obtain ⟨c, hc, hcs⟩ := h2 sys hsys
    exact ⟨c, hc, by rw [hcs, had, hbr]⟩

/-! `Sync`'s outer loop: frame over unprocessed models, and the per-model
results carried to the end of the batch. -/

theorem syncLoop_frame (env : Env) (dg : String → GetResult) (batch : Int)
    (systems : List String) (hco : EnvCoherent env) (hdg : GetCoherent dg) :
    ∀ (L : List String) (st : Store) (ws : List WriteCall) (m' : String),
      m' ∉ L →
      getInventoryItem (syncLoop env dg batch systems false L st ws).1 m' =
        getInventoryItem st m' ∧
      ∀ s', getCacheItem (syncLoop env dg batch systems false L st ws).1
        m' s' = getCacheItem st m' s' := by
  intro L
  induction L with
  | nil => intro st ws m' _; exact ⟨rfl, fun _ => rfl⟩
  | cons m0 rest ih =>
    intro st ws m' hm'
    have hne : m' ≠ m0 := fun hc => hm' (hc ▸ List.mem_cons_self m0 rest)
    have hnr : m' ∉ rest := fun hc => hm' (List.mem_cons_of_mem _ hc)
    obtain ⟨hf1, hf2⟩ := syncOneModel_frame env dg batch systems st m0 hco hdg
      m' hne
    simp only [syncLoop]
    rcases hstep : (syncOneModel env dg batch systems false st m0).2.2 with
      _ | ab
    · simp only [hstep]
      obtain ⟨hi1, hi2⟩ := ih _ _ m' hnr
      exact ⟨hi1.trans hf1, fun s' => (hi2 s').trans (hf2 s')⟩
    · simp only [hstep]
      exact ⟨hf1, hf2⟩

theorem syncLoop_model (env : Env) (dg : String → GetResult) (batch : Int)
    (systems : List String) (hco : EnvCoherent env) (hdg : GetCoherent dg)
    (m : String) (b : Int) :
    ∀ (L : List String), L.Nodup → m ∈ L →
      ∀ (st : Store) (ws : List WriteCall),
        (syncLoop env dg batch systems false L st ws).2.2 = none →
        modelBase dg st m = some b →
        getInventoryItem (syncLoop env dg batch systems false L st ws).1 m =
          some ⟨max 0 (b + modelDelta env st systems m), batch⟩ := by
  intro L
  induction L with
  | nil => intro _ hmem; exact absurd hmem (by simp)
  | cons m0 rest ih =>
    intro hnd hmem st ws hok hb
    have hndr := (List.nodup_cons.mp hnd).2
    have hm0r := (List.nodup_cons.mp hnd).1
    simp only [syncLoop] at hok ⊢
    rcases hstep : (syncOneModel env dg batch systems false st m0).2.2 with
      _ | ab
    · simp only [hstep] at hok ⊢
      rcases List.mem_cons.mp hmem with heq | hmemr
      · subst heq
        have hres := syncOneModel_inventory env dg batch systems st m b hdg hb
        obtain ⟨hi1, _⟩ := syncLoop_frame env dg batch systems hco hdg rest
          _ _ m hm0r
        rw [hi1, hres]
      · have hne : m ≠ m0 := fun hc => hm0r (hc ▸ hmemr)
        obtain ⟨hf1, hf2⟩ := syncOneModel_frame env dg batch systems st m0
          hco hdg m hne
        have hb' : modelBase dg
            (syncOneModel env dg batch systems false st m0).1 m = some b := by
          rw [modelBase_congr dg _ st m hf1]
          exact hb
        have hres := ih hndr hmemr _ _ hok hb'
        rw [modelDelta_congr env _ st m (fun sys => hf2 sys) systems] at hres
        exact hres
    · simp only [hstep] at hok
      exact absurd hok (by simp)

theorem syncLoop_model_cache (env : Env) (dg : String → GetResult)
    (batch : Int) (systems : List String) (hco : EnvCoherent env)
    (hdg : GetCoherent dg) (hnds : systems.Nodup) (m : String) (b : Int)
    (hget : ∀ sys ∈ systems, ∃ cur, env.getProduct sys m =
      GetResult.ok ⟨m, cur⟩)
    (hupd : ∀ sys ∈ systems, ∀ v, ∃ d,
      env.updateProductStocks sys m v = UpdateOutcome.ok ⟨0, d⟩) :
    ∀ (L : List String), L.Nodup → m ∈ L →
      ∀ (st : Store) (ws : List WriteCall),
        (syncLoop env dg batch systems false L st ws).2.2 = none →
        modelBase dg st m = some b →
        ∀ sys ∈ systems, ∃ c,
          getCacheItem (syncLoop env dg batch systems false L st ws).1 m sys =
            some c ∧
          c.stocks = max 0 (b + modelDelta env st systems m) := by
  intro L
  induction L with
  | nil => intro _ hmem; exact absurd hmem (by simp)
  | cons m0 rest ih =>
    intro hnd hmem st ws hok hb
    have hndr := (List.nodup_cons.mp hnd).2
    have hm0r := (List.nodup_cons.mp hnd).1
    simp only [syncLoop] at hok ⊢
    rcases hstep : (syncOneModel env dg batch systems false st m0).2.2 with
      _ | ab
    · simp only [hstep] at hok ⊢
      rcases List.mem_cons.mp hmem with heq | hmemr
      · subst heq
        obtain ⟨_, hcache⟩ := syncOneModel_allok env dg batch systems st m b
          hco hdg hnds hget hupd hb
        obtain ⟨_, hi2⟩ := syncLoop_frame env dg batch systems hco hdg rest
          _ _ m hm0r
        intro sys hsys
        obtain ⟨c, hc, hcs⟩ := hcache sys hsys
        exact ⟨c, (hi2 sys).trans hc, hcs⟩
      · have hne : m ≠ m0 := fun hc => hm0r (hc ▸ hmemr)
        obtain ⟨hf1, hf2⟩ := syncOneModel_frame env dg batch systems st m0
          hco hdg m hne
        have hb' : modelBase dg
            (syncOneModel env dg batch systems false st m0).1 m = some b := by
          rw [modelBase_congr dg _ st m hf1]
          exact hb
        have hres := ih hndr hmemr _ _ hok hb'
        rw [modelDelta_congr env _ st m (fun sys => hf2 sys) systems] at hres
        exact hres
    · simp only [hstep] at hok
      exact absurd hok (by simp)

theorem syncLoop_writes_src (env : Env) (dg : String → GetResult) (batch : Int)
    (systems : List String) (hco : EnvCoherent env) (hdg : GetCoherent dg)
    (hnds : systems.Nodup) :
    ∀ (L : List String), L.Nodup → ∀ (st : Store) (ws0 : List WriteCall),
      (syncLoop env dg batch systems false L st ws0).2.2 = none →
      ∀ w ∈ (syncLoop env dg batch systems false L st ws0).2.1,
        w ∈ ws0 ∨ ∃ m' b, m' ∈ L ∧ modelBase dg st m' = some b ∧
          w.model = m' ∧ w.value = max 0 (b + modelDelta env st systems m') ∧
          ∀ r, w.outcome = UpdateOutcome.ok r →
            ∃ c, getCacheItem
                (syncLoop env dg batch systems false L st ws0).1 m' w.system =
              some c ∧
              c.stocks = (if r.error_code = 0 then w.value else w.previous) := by
  intro L
  induction L with
  | nil => intro _ st ws0 _ w hw; exact Or.inl hw
  | cons m0 rest ih =>
    intro hnd st ws0 hok w hw
    have hndr := (List.nodup_cons.mp hnd).2
    have hm0r := (List.nodup_cons.mp hnd).1
    simp only [syncLoop] at hok hw ⊢
    rcases hstep : (syncOneModel env dg batch systems false st m0).2.2 with
      _ | ab
    · simp only [hstep] at hok hw ⊢
      rcases ih hndr _ _ hok w hw with hl | hr
      · rcases List.mem_append.mp hl with hl0 | hl1
        · exact Or.inl hl0
        · right
          obtain ⟨b, hb, hwm, hwv, hwc⟩ := syncOneModel_writes env dg batch
            systems st m0 hco hdg hnds w hl1
          refine ⟨m0, b, List.mem_cons_self _ _, hb, hwm, hwv,
            fun r hrr => ?_⟩
          obtain ⟨c, hc, hcs⟩ := hwc r hrr
          obtain ⟨_, hf2⟩ := syncLoop_frame env dg batch systems hco hdg rest
            _ _ m0 hm0r
          exact ⟨c, (hf2 w.system).trans hc, hcs⟩
      · right
        obtain ⟨m', b, hm'r, hb', hwm, hwv, hwc⟩ := hr
        have hne : m' ≠ m0 := fun hc => hm0r (hc ▸ hm'r)
        obtain ⟨hf1, hf2⟩ := syncOneModel_frame env dg batch systems st m0
          hco hdg m' hne
        refine ⟨m', b, List.mem_cons_of_mem _ hm'r, ?_, hwm, ?_, hwc⟩
        · rw [← modelBase_congr dg _ st m' hf1]
          exact hb'
        · rw [hwv, modelDelta_congr env _ st m' (fun sys => hf2 sys) systems]
    · simp only [hstep] at hok
      exact absurd hok (by simp)

theorem insertModel_nodup (l : List String) (m : String) (h : l.Nodup) :
    (insertModel l m).Nodup := by
  unfold insertModel
  split
  · exact h
  · next hm =>
    exact h.append (List.nodup_singleton m)
      (fun a ha hb => by
        simp only [List.mem_singleton] at hb
        subst hb
        exact hm ha)

theorem foldl_nodup {α : Type} (f : List String → α → List String)
    (hf : ∀ acc a, acc.Nodup → (f acc a).Nodup) :
    ∀ (l : List α) (acc : List String), acc.Nodup → (l.foldl f acc).Nodup := by
  intro l
  induction l with
  | nil => intro acc h; exact h
  | cons a t ih => intro acc h; exact ih _ (hf acc a h)

theorem collectModels_nodup (env : Env) (systems : List String) :
    (collectModels env systems).Nodup := by
  unfold collectModels
  apply foldl_nodup
  · intro acc sys hacc
    apply foldl_nodup
    · intro acc' p hacc'
      split
      · exact hacc'
      · exact insertModel_nodup _ _ hacc'
    · exact hacc
  · exact List.nodup_nil

theorem modelDelta_zero (env : Env) (st : Store) (m : String) :
    ∀ (l : List String),
      (∀ sys ∈ l, (calculateSystemStocksDelta env st sys m).1 = 0) →
      modelDelta env st l m = 0 := by
  intro l
  induction l with
  | nil => intro _; rfl
  | cons sys0 rest ih =>
    intro h
    simp only [modelDelta]
    rw [h sys0 (List.mem_cons_self _ _),
      ih (fun sys hs => h sys (List.mem_cons_of_mem _ hs))]
    ring

theorem modelDelta_single (env : Env) (st : Store) (m astar : String) :
    ∀ (systems : List String), systems.Nodup → astar ∈ systems →
      (∀ sys ∈ systems, sys ≠ astar →
        (calculateSystemStocksDelta env st sys m).1 = 0) →
      modelDelta env st systems m =
        (calculateSystemStocksDelta env st astar m).1 := by
  intro systems
  induction systems with
  | nil => intro _ hmem; exact absurd hmem (by simp)
  | cons sys0 rest ih =>
    intro hnd hmem hothers
    have hndr := (List.nodup_cons.mp hnd).2
    have hs0r := (List.nodup_cons.mp hnd).1
    simp only [modelDelta]
    rcases List.mem_cons.mp hmem with heq | hmemr
    · subst heq
      have hz : modelDelta env st rest m = 0 :=
        modelDelta_zero env st m rest (fun sys hs =>
          hothers sys (List.mem_cons_of_mem _ hs)
            (fun hc => hs0r (hc ▸ hs)))
      rw [hz]
      ring
    · have hne : sys0 ≠ astar := fun hc => hs0r (hc ▸ hmemr)
      rw [hothers sys0 (List.mem_cons_self _ _) hne,
        ih hndr hmemr (fun sys hs hne' =>
          hothers sys (List.mem_cons_of_mem _ hs) hne')]
      ring

/-- C1: Single-sale attribution — if SKU `m` is in some adapter's snapshot,
exactly one enabled marketplace `astar` reports `current = cached − s`
(`s > 0`, its cache row behaving) while every other marketplace contributes
delta 0, all `GetProduct` calls for `m` succeed and every
`UpdateProductStocks` returns error code 0, then after a normally-returning
`Sync()` the inventory row for `m` holds `max 0 (prev − s)`, every
marketplace's cache row ends at that same value, and every write issued for
`m` carried that value. -/
theorem C1_single_sale_attribution (env : Env) (dg : String → GetResult)
    (batch : Int) (systems : List String) (st : Store)
    (astar m : String) (s prev pb : Int) (castar : CacheRow)
    (hco : EnvCoherent env) (hdg : GetCoherent dg) (hnds : systems.Nodup)
    (hmem : m ∈ collectModels env systems)
    (hastar : astar ∈ systems)
    (hget : ∀ sys ∈ systems, ∃ cur, env.getProduct sys m =
      GetResult.ok ⟨m, cur⟩)
    (hupd : ∀ sys ∈ systems, ∀ v, ∃ d,
      env.updateProductStocks sys m v = UpdateOutcome.ok ⟨0, d⟩)
    (hcachea : getCacheItem st m astar = some castar)
    (hnba : castar.not_behaving = false)
    (hcura : env.getProduct astar m = GetResult.ok ⟨m, castar.stocks - s⟩)
    (hs : 0 < s)
    (hothers : ∀ sys ∈ systems, sys ≠ astar →
      (calculateSystemStocksDelta env st sys m).1 = 0)
    (hinv : getInventoryItem st m = some ⟨prev, pb⟩)
    (hok : (Sync env dg batch systems false st).2.2 = none) :
    getInventoryItem (Sync env dg batch systems false st).1 m =
      some ⟨max 0 (prev - s), batch⟩ ∧
    (∀ sys ∈ systems, ∃ c,
      getCacheItem (Sync env dg batch systems false st).1 m sys = some c ∧
      c.stocks = max 0 (prev - s)) ∧
    (∀ w ∈ (Sync env dg batch systems false st).2.1, w.model = m →
      w.value = max 0 (prev - s)) := by
  have hda : (calculateSystemStocksDelta env st astar m).1 = -s := by
    unfold calculateSystemStocksDelta
    rw [hcura, show st.cache m astar = some castar from hcachea]
    simp only [hnba, Bool.false_eq_true, if_false]
    ring
  have hmd : modelDelta env st systems m = -s := by
    rw [modelDelta_single env st m astar systems hnds hastar hothers, hda]
  have hb : modelBase dg st m = some prev := by
    unfold modelBase
    rw [hinv]
  have hsum : prev + modelDelta env st systems m = prev - s := by
    rw [hmd]
    ring
  unfold Sync at hok ⊢
  refine ⟨?_, ?_, ?_⟩
  · have hres := syncLoop_model env dg batch systems hco hdg m prev
      (collectModels env systems) (collectModels_nodup env systems) hmem st []
      hok hb
    rw [hsum] at hres
    exact hres
  · intro sys hsys
    have hres := syncLoop_model_cache env dg batch systems hco hdg hnds m prev
      hget hupd (collectModels env systems) (collectModels_nodup env systems)
      hmem st [] hok hb sys hsys
    rw [hsum] at hres
    exact hres
  · intro w hw hwm
    rcases syncLoop_writes_src env dg batch systems hco hdg hnds
      (collectModels env systems) (collectModels_nodup env systems) st []
      hok w hw with hl | ⟨m', b, _, hb', hwm', hwv, _⟩
    · exact absurd hl (by simp)
    · rw [hwm] at hwm'
      subst hwm'
      rw [hb] at hb'
      have hbp : b = prev := by simpa using hb'.symm
      subst hbp
      rw [hwv, hsum]

/-- C1 witness: the concrete scenario of spec scenario 2 — a sale of 3 on
`A`, `B` unchanged, all calls succeed — ends with inventory 7 and cache 7. -/
theorem C1_witness :
    (0 : Int) < 3 ∧
    getInventoryItem (Sync twoSysEnv noDefault 1 ["A", "B"] false
      twoSysStore).1 "X" = some ⟨7, 1⟩ ∧
    (∃ c, getCacheItem (Sync twoSysEnv noDefault 1 ["A", "B"] false
      twoSysStore).1 "X" "B" = some c ∧ c.stocks = 7) := by
  have h := C1_single_sale_attribution twoSysEnv noDefault 1 ["A", "B"]
    twoSysStore "A" "X" 3 10 0 ⟨10, 0, false⟩
    (fun sys mm p hp => by cases hp; rfl)
    (fun mm p hp => GetResult.noConfusion hp)
    (by decide) (by decide) (by decide)
    (fun sys _ => ⟨twoSysStocks sys, rfl⟩)
    (fun sys _ v => ⟨"ok", rfl⟩)
    (by decide) rfl (by decide) (by decide) (by decide) (by decide) (by decide)
  refine ⟨by decide, ?_, ?_⟩
  · have hres := h.1
    rw [show max 0 ((10 : Int) - 3) = 7 by decide] at hres
    exact hres
  · obtain ⟨c, hc, hcs⟩ := h.2.1 "B" (by decide)
    refine ⟨c, hc, ?_⟩
    rw [hcs]
    decide

/-- C2: Non-negativity clamp — for every SKU processed by a
normally-returning `Sync()`, the stored inventory value equals
`max 0 (prev + delta)`, every write issued for that SKU carries exactly that
value, and every stock value passed to any adapter's `UpdateProductStocks`
during the batch is non-negative. -/
theorem C2_nonnegativity_clamp (env : Env) (dg : String → GetResult)
    (batch : Int) (systems : List String) (st : Store) (m : String) (b : Int)
    (hco : EnvCoherent env) (hdg : GetCoherent dg) (hnds : systems.Nodup)
    (hmem : m ∈ collectModels env systems)
    (hb : modelBase dg st m = some b)
    (hok : (Sync env dg batch systems false st).2.2 = none) :
    getInventoryItem (Sync env dg batch systems false st).1 m =
      some ⟨max 0 (b + modelDelta env st systems m), batch⟩ ∧
    0 ≤ max 0 (b + modelDelta env st systems m) ∧
    (∀ w ∈ (Sync env dg batch systems false st).2.1, w.model = m →
      w.value = max 0 (b + modelDelta env st systems m)) ∧
    (∀ w ∈ (Sync env dg batch systems false st).2.1, 0 ≤ w.value) := by
  unfold Sync at hok ⊢
  refine ⟨?_, le_max_left 0 _, ?_, ?_⟩
  · exact syncLoop_model env dg batch systems hco hdg m b
      (collectModels env systems) (collectModels_nodup env systems) hmem st []
      hok hb
  · intro w hw hwm
    rcases syncLoop_writes_src env dg batch systems hco hdg hnds
      (collectModels env systems) (collectModels_nodup env systems) st []
      hok w hw with hl | ⟨m', b', _, hb', hwm', hwv, _⟩
    · exact absurd hl (by simp)
    · rw [hwm] at hwm'
      subst hwm'
      rw [hb] at hb'
      have hbp : b' = b := by simpa using hb'.symm
      subst hbp
      exact hwv
  · intro w hw
    rcases syncLoop_writes_src env dg batch systems hco hdg hnds
      (collectModels env systems) (collectModels_nodup env systems) st []
      hok w hw with hl | ⟨m', b', _, _, _, hwv, _⟩
    · exact absurd hl (by simp)
    · rw [hwv]
      exact le_max_left 0 _

/-- C2 witness: the concrete two-marketplace batch stores
`max 0 (10 − 3) = 7` and issues only non-negative writes. -/
theorem C2_witness :
    getInventoryItem (Sync twoSysEnv noDefault 1 ["A", "B"] false
      twoSysStore).1 "X" = some ⟨7, 1⟩ ∧
    ∀ w ∈ (Sync twoSysEnv noDefault 1 ["A", "B"] false twoSysStore).2.1,
      0 ≤ w.value := by
  have h := C2_nonnegativity_clamp twoSysEnv noDefault 1 ["A", "B"]
    twoSysStore "X" 10 (fun sys mm p hp => by cases hp; rfl)
    (fun mm p hp => GetResult.noConfusion hp) (by decide) (by decide)
    (by decide) (by decide)
  refine ⟨?_, h.2.2.2⟩
  have hres := h.1
  rw [show max 0 ((10 : Int) +
    modelDelta twoSysEnv twoSysStore ["A", "B"] "X") = 7 by decide] at hres
  exact hres

/-- C7: Cache-forward agreement — after a normally-returning batch, every
`UpdateProductStocks` invocation that returned error code 0 leaves the
pair's cache stocks equal to the inventory row's stocks (the post-write
commit stores exactly the written value); an invocation returning a
non-zero error code leaves the cache at the pre-write freshened value. -/
theorem C7_cache_forward_agreement (env : Env) (dg : String → GetResult)
    (batch : Int) (systems : List String) (st : Store)
    (hco : EnvCoherent env) (hdg : GetCoherent dg) (hnds : systems.Nodup)
    (hok : (Sync env dg batch systems false st).2.2 = none) :
    ∀ w ∈ (Sync env dg batch systems false st).2.1, ∀ r,
      w.outcome = UpdateOutcome.ok r →
      (r.error_code = 0 → ∃ c row,
        getCacheItem (Sync env dg batch systems false st).1 w.model w.system =
          some c ∧
        getInventoryItem (Sync env dg batch systems false st).1 w.model =
          some row ∧
        c.stocks = row.stocks) ∧
      (r.error_code ≠ 0 → ∃ c,
        getCacheItem (Sync env dg batch systems false st).1 w.model w.system =
          some c ∧
        c.stocks = w.previous) := by
  unfold Sync at hok ⊢
  intro w hw r hr
  rcases syncLoop_writes_src env dg batch systems hco hdg hnds
    (collectModels env systems) (collectModels_nodup env systems) st []
    hok w hw with hl | ⟨m', b, hm', hb', hwm, hwv, hwc⟩
  · exact absurd hl (by simp)
  · obtain ⟨c, hc, hcs⟩ := hwc r hr
    have hrow := syncLoop_model env dg batch systems hco hdg m' b
      (collectModels env systems) (collectModels_nodup env systems) hm' st []
      hok hb'
    constructor
    · intro hec
      rw [hwm]
      refine ⟨c, ⟨max 0 (b + modelDelta env st systems m'), batch⟩, hc, hrow,
        ?_⟩
      rw [hcs, if_pos hec, hwv]
    · intro hec
      rw [hwm]
      exact ⟨c, hc, by rw [hcs, if_neg hec]⟩

/-- C7 witness: the successful write of 7 to `B` leaves
`Cache(B, X).stocks = InventoryItem(X).stocks`. -/
theorem C7_witness :
    ∃ c row,
      getCacheItem (Sync twoSysEnv noDefault 1 ["A", "B"] false
        twoSysStore).1 "X" "B" = some c ∧
      getInventoryItem (Sync twoSysEnv noDefault 1 ["A", "B"] false
        twoSysStore).1 "X" = some row ∧
      c.stocks = row.stocks := by
  have h := C7_cache_forward_agreement twoSysEnv noDefault 1 ["A", "B"]
    twoSysStore (fun sys mm p hp => by cases hp; rfl)
    (fun mm p hp => GetResult.noConfusion hp) (by decide) (by decide)
    ⟨"B", "X", 10, 7, UpdateOutcome.ok ⟨0, "ok"⟩⟩ (by decide) ⟨0, "ok"⟩ rfl
  exact h.1 rfl

end Oclz
